import Mathlib

/-! OpenNSL `example_bst`: a shallow embedding and its checked properties.

The program `src/examples/example_bst.c` is an interactive console tool that
displays and clears the buffer-statistics (BST) counters of a switch port.

* Standard input is a `List Char`; the end of the list is end-of-file.
* The device library (`opennsl_*`) is a `Gateway σ`: every call takes the device
  state `σ` and returns the new state together with its results.
* Everything the program does that can be observed (library calls with their
  results, `printf` calls with their arguments) is appended to a trace of
  `Event`s, in program order.
-/

namespace ExampleBst

/-! ## Constants -/

def DEFAULT_VLAN : Int := 1
def MAX_COUNTERS : Nat := 4
def MAX_COSQ_COUNT : Nat := 8
def SWITCH_UNIT_NUM : Int := 0
def MAX_DIGITS_IN_CHOICE : Nat := 5

/-- Modelled from the spec: the header `opennsl/error.h` is not among the sources.
The success code of the OpenNSL API (`Success` in the spec); its value is the one
of the OpenNSL header. -/
def OPENNSL_E_NONE : Int := 0

/-- Modelled from the spec: the header `opennsl/error.h` is not among the sources.
The parameter-error status; its value is the one of the OpenNSL header. -/
def OPENNSL_E_PARAM : Int := -4

/-- Modelled from the spec: the header `opennsl/error.h` is not among the sources.
The generic failure code, different from the success code; its value is the one
of the OpenNSL header. -/
def OPENNSL_E_FAIL : Int := -11

/-! ## Reading a number from the console -/

/-- The test `val >= '0' && val <= '9'`. -/
def is_digit (val : Char) : Bool := decide ('0' ≤ val) && decide (val ≤ '9')

/-- The C library's `isspace` in the "C" locale (used by `atoi`). -/
def isspace (c : Char) : Bool :=
  c = ' ' || c = '\t' || c = '\n' || c = '\x0b' || c = '\x0c' || c = '\r'

/-- The digit-accumulating part of the C library's `atoi`: reads decimal digits
until the first character that is not one (or the end of the string). -/
def atoi_digits : Nat → List Char → Nat
  | acc, [] => acc
  | acc, c :: cs =>
    if is_digit c then atoi_digits (acc * 10 + (c.toNat - '0'.toNat)) cs else acc

/-- The C library's `atoi` on a NUL-terminated string given as the list of its
characters: skips white space, takes an optional sign, then decimal digits. The
value is the mathematical one; it is the `int` result whenever it fits in 32 bits. -/
def atoi (s : List Char) : Int :=
  match s.dropWhile isspace with
  | '-' :: cs => - (atoi_digits 0 cs : Int)
  | '+' :: cs => (atoi_digits 0 cs : Int)
  | cs => (atoi_digits 0 cs : Int)

/-- What `example_read_user_choice` leaves behind when it returns: its return
code, the value stored through `choice`, and the rest of standard input. -/
structure ReadResult where
  rc : Int
  choice : Int
  rest : List Char
  deriving DecidableEq, Repr

/-- The `while((val = getchar()) != '\n')` loop of `example_read_user_choice`.
`digits` is the filled part of the buffer (`idx` is its length) and `valid` the
flag. At end-of-file `getchar` keeps returning `EOF`, which is neither a newline
nor a digit, so the loop never ends: `none`. -/
def read_loop : List Char → List Char → Bool → Option (List Char × Bool × List Char)
  | [], _, _ => none
  | val :: rest, digits, valid =>
    if val = '\n' then some (digits, valid, rest)
    else if is_digit val && decide (digits.length < MAX_DIGITS_IN_CHOICE) then
      read_loop rest (digits ++ [val]) valid
    else
      read_loop rest digits false

/-- `example_read_user_choice`: `none` when the function never returns. -/
def example_read_user_choice (stdin : List Char) : Option ReadResult :=
  match read_loop stdin [] true with
  | none => none
  | some (digits, valid, rest) =>
    if valid = true ∧ digits.length ≠ 0 then
      some ⟨OPENNSL_E_NONE, atoi digits, rest⟩
    else
      some ⟨OPENNSL_E_FAIL, -1, rest⟩

/-! ## The device library and the trace -/

/-- The members of `opennsl_bst_stat_id_t` (header `opennsl/cosq.h`) that the
program names. -/
inductive opennsl_bst_stat_id_t
  | opennslBstStatIdUcast
  | opennslBstStatIdMcast
  | opennslBstStatIdPriGroupShared
  | opennslBstStatIdPriGroupHeadroom
  deriving DecidableEq, Repr

/-- The member of `opennsl_switch_control_t` that the program names. -/
inductive opennsl_switch_control_t
  | opennslSwitchBstEnable
  deriving DecidableEq, Repr

/-- The struct `example_bst_counter_t`. -/
structure example_bst_counter_t where
  bid : opennsl_bst_stat_id_t
  name : String
  deriving DecidableEq, Repr

/-- The array `id_list` of `main`, as a function of the index. It has
`MAX_COUNTERS` entries; the program never reads it at another index (the last
case is not a read the program makes). -/
def id_list : Nat → example_bst_counter_t
  | 0 => ⟨.opennslBstStatIdUcast, "opennslBstStatIdUcast"⟩
  | 1 => ⟨.opennslBstStatIdMcast, "opennslBstStatIdMcast"⟩
  | 2 => ⟨.opennslBstStatIdPriGroupShared, "opennslBstStatIdPriGroupShared"⟩
  | _ => ⟨.opennslBstStatIdPriGroupHeadroom, "opennslBstStatIdPriGroupHeadroom"⟩

/-- The array `uint64 val[MAX_COUNTERS][MAX_COSQ_COUNT]` of `main`. -/
abbrev Val := Nat → Nat → Nat

/-- The assignment `val[index][cosq] = v`. -/
def Val.set (val : Val) (index cosq v : Nat) : Val :=
  fun i c => if i = index ∧ c = cosq then v else val i c

/-- The device library, as seen by the program. `σ` is the state of the device and
of the library. Each operation returns the new state, its return code and what it
writes through its output pointer. `opennsl_cosq_bst_stat_get` receives a pointer
to `val[index][cosq]`: it is given the cell's content and returns the content after
the call. The diagnostic shell reads standard input and returns what is left. -/
structure Gateway (σ : Type) where
  opennsl_errmsg : Int → String
  opennsl_driver_init : σ → σ × Int
  opennsl_port_config_get : σ → Int → σ × Int × Nat
  opennsl_vlan_port_add : σ → Int → Int → Nat → Nat → σ × Int
  opennsl_switch_control_set : σ → Int → opennsl_switch_control_t → Int → σ × Int
  opennsl_port_gport_get : σ → Int → Int → σ × Int × Int
  opennsl_cosq_bst_stat_sync : σ → Int → opennsl_bst_stat_id_t → σ × Int
  opennsl_cosq_bst_stat_get :
    σ → Int → Int → Nat → opennsl_bst_stat_id_t → Nat → Nat → σ × Int × Nat
  opennsl_cosq_bst_stat_clear : σ → Int → Int → Nat → opennsl_bst_stat_id_t → σ × Int
  opennsl_driver_shell : σ → List Char → σ × List Char

/-- An argument of a `printf` call. -/
inductive Arg
  | int (n : Int)
  | str (s : String)
  | u64 (n : Nat)
  deriving DecidableEq, Repr

/-- One observable action of the program: a `printf` call with its format and
arguments, or a library call with its arguments and results. -/
inductive Event
  | printf (fmt : String) (args : List Arg)
  | driver_init (rc : Int)
  | port_config_get (unit : Int) (rc : Int) (e : Nat)
  | vlan_port_add (unit vid : Int) (pbmp ubmp : Nat) (rc : Int)
  | switch_control_set (unit : Int) (type : opennsl_switch_control_t) (arg : Int) (rc : Int)
  | port_gport_get (unit port : Int) (rc : Int) (gport : Int)
  | bst_stat_sync (unit : Int) (bid : opennsl_bst_stat_id_t) (rc : Int)
  | bst_stat_get (unit gport : Int) (cosq : Nat) (bid : opennsl_bst_stat_id_t)
      (options : Nat) (rc : Int) (value : Nat)
  | bst_stat_clear (unit gport : Int) (cosq : Nat) (bid : opennsl_bst_stat_id_t) (rc : Int)
  | driver_shell
  deriving DecidableEq, Repr

/-! ### The format strings of the program -/

def example_usage : String :=
  "Syntax: example_bst                                                   \n\r" ++
  "                                                                      \n\r" ++
  "Paramaters: None                                                      \n\r" ++
  "                                                                      \n\r" ++
  "Example: The following command is used to see the bst stats of a port \n\r" ++
  "         example_bst                                                  \n\r" ++
  "                                                                      \n\r" ++
  "Usage Guidelines: This program request the user to enter the port     \n\r" ++
  "                  number interactively                                \n\r"

def fmt_menu_title : String := "\nUser Menu: Select one of the following options\n"
def fmt_menu_display : String := "1. Display bst statistics of a port.\n"
def fmt_menu_clear : String := "2. Clear bst statistics of a port.\n"
def fmt_menu_shell : String := "9. Launch diagnostic shell\n"
def fmt_menu_quit : String := "0. Quit the application.\n"
def fmt_invalid_option : String := "Invalid option entered. Please re-enter.\n"
def fmt_enter_port : String := "\r\nEnter the port number.\r\n"
def fmt_sync_failed : String := "\r\nFailed to sync the state of port, rc = %d (%s).\r\n"
def fmt_get_failed : String := "\r\nFailed to get the port stats, rc = %d (%s).\r\n"
def fmt_bst_counter : String := "BST Counter: %s for COS queue: %d is : %llu\n"
def fmt_newline : String := "\n"
def fmt_clear_failed : String := "\r\nFailed to clear the port stats, rc = %d (%s).\r\n"
def fmt_stats_cleared : String := "\r\nPort %d stats cleared\r\n"
def fmt_exiting : String := "Exiting the application.\n"

/-- The five `printf` calls at the top of the `while (1)` loop. -/
def menu_prompt : List Event :=
  [.printf fmt_menu_title [], .printf fmt_menu_display [], .printf fmt_menu_clear [],
   .printf fmt_menu_shell [], .printf fmt_menu_quit []]

/-- The text a `printf` call writes, for the conversions the program uses
(`%d`, `%s`, `%llu`). -/
def format : List Char → List Arg → List Char
  | '%' :: 'd' :: fs, .int n :: as => (toString n).data ++ format fs as
  | '%' :: 's' :: fs, .str s :: as => s.data ++ format fs as
  | '%' :: 'l' :: 'l' :: 'u' :: fs, .u64 n :: as => (toString n).data ++ format fs as
  | c :: fs, as => c :: format fs as
  | [], _ => []

/-- The console output of a trace: the texts of its `printf` calls, in order. -/
def console : List Event → List Char
  | [] => []
  | .printf fmt args :: t => format fmt.data args ++ console t
  | _ :: t => console t

/-! ## The program -/

section Program

variable {σ : Type}

/-- The function `example_switch_default_vlan_config`: the new device state, the
return code and the trace. -/
def example_switch_default_vlan_config (g : Gateway σ) (s : σ) (unit : Int) :
    σ × Int × List Event :=
  let r := g.opennsl_port_config_get s unit
  if r.2.1 ≠ OPENNSL_E_NONE then
    (r.1, r.2.1,
      [.port_config_get unit r.2.1 r.2.2,
       .printf "Failed to get port configuration. Error %s\n" [.str (g.opennsl_errmsg r.2.1)]])
  else
    let a := g.opennsl_vlan_port_add r.1 unit DEFAULT_VLAN r.2.2 r.2.2
    if a.2 ≠ OPENNSL_E_NONE then
      (a.1, a.2,
        [.port_config_get unit r.2.1 r.2.2,
         .vlan_port_add unit DEFAULT_VLAN r.2.2 r.2.2 a.2,
         .printf "Failed to add ports to VLAN. Error %s\n" [.str (g.opennsl_errmsg a.2)]])
    else
      (a.1, OPENNSL_E_NONE,
        [.port_config_get unit r.2.1 r.2.2,
         .vlan_port_add unit DEFAULT_VLAN r.2.2 r.2.2 a.2])

/-- The first loop of `case 1`,
`for (index = 0; index < MAX_COUNTERS; index++) { rc = sync(...); if (rc != OPENNSL_E_NONE) { printf; break; } }`,
over the values `index` still has to take. -/
def sync_loop (g : Gateway σ) (unit : Int) : List Nat → σ → σ × List Event
  | [], s => (s, [])
  | index :: more, s =>
    let r := g.opennsl_cosq_bst_stat_sync s unit (id_list index).bid
    if r.2 ≠ OPENNSL_E_NONE then
      (r.1, [.bst_stat_sync unit (id_list index).bid r.2,
             .printf fmt_sync_failed [.int r.2, .str (g.opennsl_errmsg r.2)]])
    else
      let t := sync_loop g unit more r.1
      (t.1, .bst_stat_sync unit (id_list index).bid r.2 :: t.2)

/-- The inner loop of the second loop of `case 1`,
`for (cosq = 0; cosq <= 7; cosq++) { rc = get(..., &val[index][cosq]); if (rc != OPENNSL_E_NONE) { printf; break; } printf; }`,
over the values `cosq` still has to take. -/
def get_loop (g : Gateway σ) (unit gport : Int) (options : Nat) (index : Nat) :
    List Nat → σ → Val → σ × Val × List Event
  | [], s, val => (s, val, [])
  | cosq :: more, s, val =>
    let r := g.opennsl_cosq_bst_stat_get s unit gport cosq (id_list index).bid options
      (val index cosq)
    let val1 := val.set index cosq r.2.2
    if r.2.1 ≠ OPENNSL_E_NONE then
      (r.1, val1,
        [.bst_stat_get unit gport cosq (id_list index).bid options r.2.1 r.2.2,
         .printf fmt_get_failed [.int r.2.1, .str (g.opennsl_errmsg r.2.1)]])
    else
      let t := get_loop g unit gport options index more r.1 val1
      (t.1, t.2.1,
        .bst_stat_get unit gport cosq (id_list index).bid options r.2.1 r.2.2 ::
        .printf fmt_bst_counter
          [.str (id_list index).name, .int (cosq : Int), .u64 (val1 index cosq)] :: t.2.2)

/-- The second loop of `case 1`,
`for (index = 0; index < MAX_COUNTERS; index++) { for (cosq ...) {...} printf("\n"); }`,
over the values `index` still has to take. -/
def read_phase (g : Gateway σ) (unit gport : Int) (options : Nat) :
    List Nat → σ → Val → σ × Val × List Event
  | [], s, val => (s, val, [])
  | index :: more, s, val =>
    let r := get_loop g unit gport options index (List.range (7 + 1)) s val
    let t := read_phase g unit gport options more r.1 r.2.1
    (t.1, t.2.1, r.2.2 ++ .printf fmt_newline [] :: t.2.2)

/-- The two loops of `case 1` that follow a successful port resolution: the
display operation. -/
def display_stats (g : Gateway σ) (unit gport : Int) (options : Nat) (s : σ) (val : Val) :
    σ × Val × List Event :=
  let a := sync_loop g unit (List.range MAX_COUNTERS) s
  let b := read_phase g unit gport options (List.range MAX_COUNTERS) a.1 val
  (b.1, b.2.1, a.2 ++ b.2.2)

/-- The inner loop of `case 2`,
`for (cosq = 0; cosq <= 7; cosq++) { rc = clear(...); if (rc != OPENNSL_E_NONE) { printf; break; } }`,
over the values `cosq` still has to take. -/
def clear_loop (g : Gateway σ) (unit gport : Int) (index : Nat) :
    List Nat → σ → σ × List Event
  | [], s => (s, [])
  | cosq :: more, s =>
    let r := g.opennsl_cosq_bst_stat_clear s unit gport cosq (id_list index).bid
    if r.2 ≠ OPENNSL_E_NONE then
      (r.1, [.bst_stat_clear unit gport cosq (id_list index).bid r.2,
             .printf fmt_clear_failed [.int r.2, .str (g.opennsl_errmsg r.2)]])
    else
      let t := clear_loop g unit gport index more r.1
      (t.1, .bst_stat_clear unit gport cosq (id_list index).bid r.2 :: t.2)

/-- The outer loop of `case 2`,
`for (index = 0; index < MAX_COUNTERS; index++) { for (cosq ...) {...} printf("\n"); }`,
over the values `index` still has to take. -/
def clear_phase (g : Gateway σ) (unit gport : Int) : List Nat → σ → σ × List Event
  | [], s => (s, [])
  | index :: more, s =>
    let r := clear_loop g unit gport index (List.range (7 + 1)) s
    let t := clear_phase g unit gport more r.1
    (t.1, r.2 ++ .printf fmt_newline [] :: t.2)

/-- The loops of `case 2` that follow a successful port resolution, with the
closing `printf`: the clear operation. -/
def clear_stats (g : Gateway σ) (unit gport port : Int) (s : σ) : σ × List Event :=
  let a := clear_phase g unit gport (List.range MAX_COUNTERS) s
  (a.1, a.2 ++ [.printf fmt_stats_cleared [.int port]])

/-- How one pass through the body of `while (1)` ends. -/
inductive Control
  /-- The end of the body, a `break` out of the `switch` or a `continue`: the loop
  starts its next pass. -/
  | next
  /-- A `return` out of `main` with the given status. -/
  | returned (status : Int)
  /-- The pass never ends: `example_read_user_choice` reads at end-of-file. -/
  | blocked
  deriving DecidableEq, Repr

/-- The variables of `main` that one pass of the loop hands to the next, with the
rest of standard input. -/
structure State (σ : Type) where
  dev : σ
  stdin : List Char
  val : Val

/-- The outcome of one pass through the body of `while (1)`. -/
structure Step (σ : Type) where
  st : State σ
  trace : List Event
  ctl : Control

/-- The body of `case 1`, after the prompt has been printed. -/
def case_1 (g : Gateway σ) (unit : Int) (options : Nat) (st : State σ) : Step σ :=
  match example_read_user_choice st.stdin with
  | none => ⟨⟨st.dev, [], st.val⟩, [], .blocked⟩
  | some r =>
    if r.rc ≠ OPENNSL_E_NONE then
      ⟨⟨st.dev, r.rest, st.val⟩, [.printf fmt_invalid_option []], .next⟩
    else
      let p := g.opennsl_port_gport_get st.dev unit r.choice
      if p.2.1 ≠ OPENNSL_E_NONE then
        ⟨⟨p.1, r.rest, st.val⟩, [.port_gport_get unit r.choice p.2.1 p.2.2],
          .returned OPENNSL_E_FAIL⟩
      else
        let d := display_stats g unit p.2.2 options p.1 st.val
        ⟨⟨d.1, r.rest, d.2.1⟩, .port_gport_get unit r.choice p.2.1 p.2.2 :: d.2.2, .next⟩

/-- The body of `case 2`, after the prompt has been printed. -/
def case_2 (g : Gateway σ) (unit : Int) (st : State σ) : Step σ :=
  match example_read_user_choice st.stdin with
  | none => ⟨⟨st.dev, [], st.val⟩, [], .blocked⟩
  | some r =>
    if r.rc ≠ OPENNSL_E_NONE then
      ⟨⟨st.dev, r.rest, st.val⟩, [.printf fmt_invalid_option []], .next⟩
    else
      let p := g.opennsl_port_gport_get st.dev unit r.choice
      if p.2.1 ≠ OPENNSL_E_NONE then
        ⟨⟨p.1, r.rest, st.val⟩, [.port_gport_get unit r.choice p.2.1 p.2.2],
          .returned OPENNSL_E_FAIL⟩
      else
        let c := clear_stats g unit p.2.2 r.choice p.1
        ⟨⟨c.1, r.rest, st.val⟩, .port_gport_get unit r.choice p.2.1 p.2.2 :: c.2, .next⟩

/-- One pass through the body of the `while (1)` loop of `main`: the menu, the
choice, and the `switch`. -/
def menu_pass (g : Gateway σ) (unit : Int) (options : Nat) (st : State σ) : Step σ :=
  match example_read_user_choice st.stdin with
  | none => ⟨⟨st.dev, [], st.val⟩, menu_prompt, .blocked⟩
  | some r =>
    if r.rc ≠ OPENNSL_E_NONE then
      ⟨⟨st.dev, r.rest, st.val⟩, menu_prompt ++ [.printf fmt_invalid_option []], .next⟩
    else if r.choice = 1 then
      let c := case_1 g unit options ⟨st.dev, r.rest, st.val⟩
      ⟨c.st, menu_prompt ++ .printf fmt_enter_port [] :: c.trace, c.ctl⟩
    else if r.choice = 2 then
      let c := case_2 g unit ⟨st.dev, r.rest, st.val⟩
      ⟨c.st, menu_prompt ++ .printf fmt_enter_port [] :: c.trace, c.ctl⟩
    else if r.choice = 9 then
      let d := g.opennsl_driver_shell st.dev r.rest
      ⟨⟨d.1, d.2, st.val⟩, menu_prompt ++ [.driver_shell], .next⟩
    else if r.choice = 0 then
      ⟨⟨st.dev, r.rest, st.val⟩, menu_prompt ++ [.printf fmt_exiting []],
        .returned OPENNSL_E_NONE⟩
    else
      ⟨⟨st.dev, r.rest, st.val⟩, menu_prompt, .next⟩

/-- How a run of the program ends, as far as it has been followed. -/
inductive Outcome
  /-- The function `main` returned this status. -/
  | exited (status : Int)
  /-- The program waits for input at end-of-file and never returns. -/
  | blocked
  /-- The loop was followed for the given number of passes and is about to start
  another one. -/
  | running
  deriving DecidableEq, Repr

/-- The `while (1)` loop of `main`, followed for at most `passes` passes: the
state, the trace and the outcome. -/
def menu_loop (g : Gateway σ) (unit : Int) (options : Nat) :
    Nat → State σ → State σ × List Event × Outcome
  | 0, st => (st, [], .running)
  | passes + 1, st =>
    let p := menu_pass g unit options st
    match p.ctl with
    | .returned status => (p.st, p.trace, .exited status)
    | .blocked => (p.st, p.trace, .blocked)
    | .next =>
      let l := menu_loop g unit options passes p.st
      (l.1, p.trace ++ l.2.1, l.2.2)

/-- The function `main`, with the loop followed for at most `passes` passes.
`argv` holds the command-line words, the program name first. -/
def main (g : Gateway σ) (passes : Nat) (argv : List String) (s : σ) (stdin : List Char) :
    State σ × List Event × Outcome :=
  let unit := SWITCH_UNIT_NUM
  let options : Nat := 0
  let val : Val := fun _ _ => 0
  if argv.length ≠ 1 ∨ (argv.length > 1 ∧ argv.get? 1 = some "--help") then
    (⟨s, stdin, val⟩, [.printf "%s\n\r" [.str example_usage]], .exited OPENNSL_E_PARAM)
  else
    let i := g.opennsl_driver_init s
    if i.2 ≠ OPENNSL_E_NONE then
      (⟨i.1, stdin, val⟩,
        [.printf "Initializing the system.\r\n" [], .driver_init i.2,
         .printf "\r\nFailed to initialize the system, rc = %d (%s).\r\n"
           [.int i.2, .str (g.opennsl_errmsg i.2)]],
        .exited 0)
    else
      let v := example_switch_default_vlan_config g i.1 unit
      let tv : List Event :=
        if v.2.1 ≠ OPENNSL_E_NONE then
          [.printf "\r\nFailed to add default ports, rc = %d (%s).\r\n"
            [.int v.2.1, .str (g.opennsl_errmsg v.2.1)]]
        else []
      let b := g.opennsl_switch_control_set v.1 unit .opennslSwitchBstEnable 1
      let t0 : List Event :=
        [.printf "Initializing the system.\r\n" [], .driver_init i.2,
         .printf "Adding ports to default vlan.\r\n" []] ++ v.2.2 ++ tv ++
        [.switch_control_set unit .opennslSwitchBstEnable 1 b.2]
      if b.2 ≠ OPENNSL_E_NONE then
        (⟨b.1, stdin, val⟩,
          t0 ++ [.printf "\r\nFailed to Enable bst, rc = %d (%s).\r\n"
            [.int b.2, .str (g.opennsl_errmsg b.2)]],
          .exited 0)
      else
        let l := menu_loop g unit options passes ⟨b.1, stdin, val⟩
        (l.1, t0 ++ .printf "BST feature is enabled.\r\n" [] :: l.2.1, l.2.2)

end Program

/-! ## Notions used to state the properties -/

/-- The value of a decimal digit character. -/
def digit_value (c : Char) : Nat := c.toNat - '0'.toNat

/-- The base-10 value of a string of digits, most significant digit first. -/
def decimal_value (line : List Char) : Nat :=
  Nat.ofDigits 10 (line.reverse.map digit_value)


/-- The kinds of the synchronisation calls of a trace, in order. -/
def sync_calls : List Event → List opennsl_bst_stat_id_t
  | [] => []
  | .bst_stat_sync _ bid _ :: t => bid :: sync_calls t
  | _ :: t => sync_calls t

/-- The (kind, queue) pairs of the read calls of a trace, in order. -/
def get_calls : List Event → List (opennsl_bst_stat_id_t × Nat)
  | [] => []
  | .bst_stat_get _ _ cosq bid _ _ _ :: t => (bid, cosq) :: get_calls t
  | _ :: t => get_calls t

/-- The (kind, queue) pairs of the clear calls of a trace, in order. -/
def clear_calls : List Event → List (opennsl_bst_stat_id_t × Nat)
  | [] => []
  | .bst_stat_clear _ _ cosq bid _ :: t => (bid, cosq) :: clear_calls t
  | _ :: t => clear_calls t

/-- The library calls of a trace: every event that is not a `printf`. -/
def library_calls : List Event → List Event
  | [] => []
  | .printf _ _ :: t => library_calls t
  | e :: t => e :: library_calls t

/-- The number of value lines (`BST Counter: <name> for COS queue: ...`) that a
trace prints for the counter of the given name. -/
def value_lines (name : String) : List Event → Nat
  | [] => 0
  | .printf fmt (.str n :: _) :: t =>
    (if fmt = fmt_bst_counter ∧ n = name then 1 else 0) + value_lines name t
  | _ :: t => value_lines name t

/-- Whether an event is a library call that reported an error. -/
def Event.failed : Event → Bool
  | .driver_init rc => rc ≠ OPENNSL_E_NONE
  | .port_config_get _ rc _ => rc ≠ OPENNSL_E_NONE
  | .vlan_port_add _ _ _ _ rc => rc ≠ OPENNSL_E_NONE
  | .switch_control_set _ _ _ rc => rc ≠ OPENNSL_E_NONE
  | .port_gport_get _ _ rc _ => rc ≠ OPENNSL_E_NONE
  | .bst_stat_sync _ _ rc => rc ≠ OPENNSL_E_NONE
  | .bst_stat_get _ _ _ _ _ rc _ => rc ≠ OPENNSL_E_NONE
  | .bst_stat_clear _ _ _ _ rc => rc ≠ OPENNSL_E_NONE
  | _ => false

/-- The events of a read loop whose reads all succeed, over the given queues:
for each queue the read, then the value line. `v` gives the value read. -/
def get_ok_events (unit gport : Int) (options : Nat) (index : Nat) (v : Nat → Nat) :
    List Nat → List Event
  | [] => []
  | cosq :: more =>
    .bst_stat_get unit gport cosq (id_list index).bid options OPENNSL_E_NONE (v cosq) ::
    .printf fmt_bst_counter [.str (id_list index).name, .int (cosq : Int), .u64 (v cosq)] ::
    get_ok_events unit gport options index v more

/-- The events of a loop of successful synchronisations over the given indices. -/
def sync_ok_events (unit : Int) : List Nat → List Event
  | [] => []
  | index :: more =>
    .bst_stat_sync unit (id_list index).bid OPENNSL_E_NONE :: sync_ok_events unit more

/-- The events of a loop of successful clears over the given queues. -/
def clear_ok_events (unit gport : Int) (index : Nat) : List Nat → List Event
  | [] => []
  | cosq :: more =>
    .bst_stat_clear unit gport cosq (id_list index).bid OPENNSL_E_NONE ::
    clear_ok_events unit gport index more

/-- The trace of a display operation in which every call succeeds: the four
synchronisations, then for each kind its eight reads, each followed by its value
line, and the `printf("\n")` that closes the kind. `v index cosq` is the value
read. -/
def display_ok_trace (unit gport : Int) (options : Nat) (v : Nat → Nat → Nat) : List Event :=
  sync_ok_events unit [0, 1, 2, 3] ++
  (get_ok_events unit gport options 0 (v 0) [0, 1, 2, 3, 4, 5, 6, 7] ++ [.printf "\n" []]) ++
  (get_ok_events unit gport options 1 (v 1) [0, 1, 2, 3, 4, 5, 6, 7] ++ [.printf "\n" []]) ++
  (get_ok_events unit gport options 2 (v 2) [0, 1, 2, 3, 4, 5, 6, 7] ++ [.printf "\n" []]) ++
  (get_ok_events unit gport options 3 (v 3) [0, 1, 2, 3, 4, 5, 6, 7] ++ [.printf "\n" []])

/-- The line `BST Counter: <kind-name> for COS queue: <q> is : <value>`. -/
def value_line (name : String) (q value : Nat) : List Char :=
  ("BST Counter: " ++ name ++ " for COS queue: " ++ toString q ++ " is : " ++
    toString value ++ "\n").data

/-- The eight value lines of one kind, queues ascending, then a blank line. -/
def kind_block (name : String) (v : Nat → Nat) : List Char :=
  value_line name 0 (v 0) ++ value_line name 1 (v 1) ++ value_line name 2 (v 2) ++
  value_line name 3 (v 3) ++ value_line name 4 (v 4) ++ value_line name 5 (v 5) ++
  value_line name 6 (v 6) ++ value_line name 7 (v 7) ++ ['\n']

/-- The console output of a display operation in which every call succeeds. -/
def display_ok_console (v : Nat → Nat → Nat) : List Char :=
  kind_block "opennslBstStatIdUcast" (v 0) ++ kind_block "opennslBstStatIdMcast" (v 1) ++
  kind_block "opennslBstStatIdPriGroupShared" (v 2) ++
  kind_block "opennslBstStatIdPriGroupHeadroom" (v 3)

/-! ### A table-driven device, for concrete runs -/

/-- What a table-driven device answers: the return code of each call and the
values of the counters. -/
structure Table where
  gport_rc : Int → Int
  sync_rc : opennsl_bst_stat_id_t → Int
  get_rc : opennsl_bst_stat_id_t → Nat → Int
  value : opennsl_bst_stat_id_t → Nat → Nat
  clear_rc : opennsl_bst_stat_id_t → Nat → Int

/-- The device that answers from a table. Its state counts the calls made. A read
that fails leaves the cell as it was. The shell reads nothing. -/
def table_device (t : Table) : Gateway Nat where
  opennsl_errmsg := fun rc => if rc = 0 then "Ok" else "Operation failed"
  opennsl_driver_init := fun s => (s + 1, 0)
  opennsl_port_config_get := fun s _ => (s + 1, 0, 0)
  opennsl_vlan_port_add := fun s _ _ _ _ => (s + 1, 0)
  opennsl_switch_control_set := fun s _ _ _ => (s + 1, 0)
  opennsl_port_gport_get := fun s _ port => (s + 1, t.gport_rc port, port)
  opennsl_cosq_bst_stat_sync := fun s _ bid => (s + 1, t.sync_rc bid)
  opennsl_cosq_bst_stat_get := fun s _ _ cosq bid _ old =>
    (s + 1, t.get_rc bid cosq, if t.get_rc bid cosq = 0 then t.value bid cosq else old)
  opennsl_cosq_bst_stat_clear := fun s _ _ cosq bid => (s + 1, t.clear_rc bid cosq)
  opennsl_driver_shell := fun s stdin => (s + 1, stdin)

/-- The counters of the end-to-end scenario of the specification: unicast
`[1,2,0,0,0,0,0,0]`, multicast all 0, shared all 5, headroom all 0. -/
def scenario_value : opennsl_bst_stat_id_t → Nat → Nat
  | .opennslBstStatIdUcast, 0 => 1
  | .opennslBstStatIdUcast, 1 => 2
  | .opennslBstStatIdPriGroupShared, _ => 5
  | _, _ => 0

/-- A device on which every call succeeds, with the counters of the scenario. -/
def healthy : Table :=
  ⟨fun _ => 0, fun _ => 0, fun _ _ => 0, scenario_value, fun _ _ => 0⟩

/-- A device on which the synchronisation of the multicast counter fails. -/
def sync_fails_mcast : Table :=
  ⟨fun _ => 0, fun bid => if bid = .opennslBstStatIdMcast then -1 else 0, fun _ _ => 0,
    scenario_value, fun _ _ => 0⟩

/-- A device on which the read of queue 2 of the multicast counter fails. -/
def get_fails_mcast_2 : Table :=
  ⟨fun _ => 0, fun _ => 0,
    fun bid cosq => if bid = .opennslBstStatIdMcast ∧ cosq = 2 then -1 else 0,
    scenario_value, fun _ _ => 0⟩

/-- A device on which the clear of queue 2 of the multicast counter fails. -/
def clear_fails_mcast_2 : Table :=
  ⟨fun _ => 0, fun _ => 0, fun _ _ => 0, scenario_value,
    fun bid cosq => if bid = .opennslBstStatIdMcast ∧ cosq = 2 then -1 else 0⟩

/-- A device on which no port resolves. -/
def no_port : Table :=
  ⟨fun _ => -7, fun _ => 0, fun _ _ => 0, scenario_value, fun _ _ => 0⟩

/-- The array `val` as `main` initialises it. -/
def val_zero : Val := fun _ _ => 0


/-- The calls of a phase that handles the kinds in catalog order and, for the kind
of index `i`, the queues `0`, `1`, ..., `n i - 1` in ascending order. -/
def calls_in_order (n : Nat → Nat) : List (opennsl_bst_stat_id_t × Nat) :=
  (List.range MAX_COUNTERS).flatMap
    (fun i => (List.range (n i)).map (fun c => ((id_list i).bid, c)))

/-- The trace of one run of the synchronisation loop: all four synchronisations
succeed, or those of the indices below `i` succeed and the one of index `i` fails,
which ends the loop. -/
def SyncBlock (errmsg : Int → String) (unit : Int) (S : List Event) : Prop :=
  S = sync_ok_events unit (List.range MAX_COUNTERS) ∨
  ∃ i rc, i < MAX_COUNTERS ∧ rc ≠ OPENNSL_E_NONE ∧
    S = sync_ok_events unit (List.range i) ++
      [.bst_stat_sync unit (id_list i).bid rc,
       .printf fmt_sync_failed [.int rc, .str (errmsg rc)]]

/-- The trace of one run of the read loop of the kind of index `index`: all eight
reads succeed, or those of the queues below `c` succeed and the one of queue `c`
fails, which ends the loop. -/
def GetBlock (errmsg : Int → String) (unit gport : Int) (options index : Nat)
    (B : List Event) : Prop :=
  ∃ v : Nat → Nat,
    B = get_ok_events unit gport options index v (List.range 8) ∨
    ∃ c rc x, c < 8 ∧ rc ≠ OPENNSL_E_NONE ∧
      B = get_ok_events unit gport options index v (List.range c) ++
        [.bst_stat_get unit gport c (id_list index).bid options rc x,
         .printf fmt_get_failed [.int rc, .str (errmsg rc)]]

/-- The trace of one run of the clear loop of the kind of index `index`. -/
def ClearBlock (errmsg : Int → String) (unit gport : Int) (index : Nat)
    (B : List Event) : Prop :=
  B = clear_ok_events unit gport index (List.range 8) ∨
  ∃ c rc, c < 8 ∧ rc ≠ OPENNSL_E_NONE ∧
    B = clear_ok_events unit gport index (List.range c) ++
      [.bst_stat_clear unit gport c (id_list index).bid rc,
       .printf fmt_clear_failed [.int rc, .str (errmsg rc)]]


/-- The numeric-input rule of the specification: the line has at least one
character, only digit characters, and at most 5 of them. -/
def well_formed (line : List Char) : Prop :=
  line ≠ [] ∧ (∀ c ∈ line, '0' ≤ c ∧ c ≤ '9') ∧ line.length ≤ 5


instance well_formed_decidable (line : List Char) : Decidable (well_formed line) := by
  unfold well_formed
  exact inferInstance

/-! ## Properties of the console reader -/

theorem is_digit_iff (c : Char) : is_digit c = true ↔ '0' ≤ c ∧ c ≤ '9' := by
  simp [is_digit]

theorem read_loop_line (rest : List Char) :
    ∀ (line digits : List Char) (valid : Bool), '\n' ∉ line →
      digits.length ≤ MAX_DIGITS_IN_CHOICE →
      ∃ D V, read_loop (line ++ '\n' :: rest) digits valid = some (D, V, rest) ∧
        (V = true ↔ valid = true ∧ (∀ c ∈ line, is_digit c = true) ∧
          digits.length + line.length ≤ MAX_DIGITS_IN_CHOICE) ∧
        (V = true → D = digits ++ line) := by
  intro line
  induction line with
  | nil =>
    intro digits valid _ hd
    refine ⟨digits, valid, ?_, ?_, ?_⟩
    · simp [read_loop]
    · simp [hd]
    · simp
  | cons c cs ih =>
    intro digits valid hnl hd
    have hc : c ≠ '\n' := by
      intro h
      exact hnl (by simp [h])
    have hcs : '\n' ∉ cs := by
      intro h
      exact hnl (by simp [h])
    by_cases hacc : is_digit c = true ∧ digits.length < MAX_DIGITS_IN_CHOICE
    · have hlt := hacc.2
      obtain ⟨D, V, h1, h2, h3⟩ := ih (digits ++ [c]) valid hcs (by
        rw [List.length_append, List.length_singleton]; omega)
      refine ⟨D, V, ?_, ?_, ?_⟩
      · simp [read_loop, hc, hacc.1, hacc.2, h1]
      · have e1 : (digits ++ [c]).length + cs.length = digits.length + (c :: cs).length := by
          rw [List.length_append, List.length_singleton, List.length_cons]
          omega
        rw [h2, e1]
        simp [hacc.1]
      · intro hV
        rw [h3 hV]
        simp
    · obtain ⟨D, V, h1, h2, _⟩ := ih digits false hcs hd
      have hV : V = false := by
        cases V with
        | false => rfl
        | true => simp at h2
      refine ⟨D, V, ?_, ?_, ?_⟩
      · have : (is_digit c && decide (digits.length < MAX_DIGITS_IN_CHOICE)) = false := by
          by_cases h : is_digit c = true
          · have : ¬ digits.length < MAX_DIGITS_IN_CHOICE := fun h2 => hacc ⟨h, h2⟩
            simp [this]
          · simp [h]
        simp [read_loop, hc, this, h1]
      · subst hV
        simp only [Bool.false_eq_true, List.mem_cons, forall_eq_or_imp, List.length_cons,
          false_iff, not_and]
        intro _ hall hlen
        have hlen2 : digits.length + (cs.length + 1) ≤ MAX_DIGITS_IN_CHOICE := hlen
        exact hacc ⟨hall.1, by omega⟩
      · subst hV
        simp

theorem read_loop_no_newline :
    ∀ (stdin digits : List Char) (valid : Bool), '\n' ∉ stdin →
      read_loop stdin digits valid = none := by
  intro stdin
  induction stdin with
  | nil => intros; rfl
  | cons c cs ih =>
    intro digits valid h
    have hc : c ≠ '\n' := by
      intro e
      exact h (by simp [e])
    have hcs : '\n' ∉ cs := by
      intro e
      exact h (by simp [e])
    simp only [read_loop, hc, if_false]
    split
    · exact ih _ _ hcs
    · exact ih _ _ hcs

theorem split_at_newline :
    ∀ stdin : List Char, '\n' ∈ stdin →
      ∃ line rest, '\n' ∉ line ∧ stdin = line ++ '\n' :: rest := by
  intro stdin
  induction stdin with
  | nil => intro h; simp at h
  | cons c cs ih =>
    intro h
    by_cases hc : c = '\n'
    · exact ⟨[], cs, by simp, by simp [hc]⟩
    · have : '\n' ∈ cs := by
        rcases List.mem_cons.1 h with e | e
        · exact absurd e.symm hc
        · exact e
      obtain ⟨line, rest, h1, h2⟩ := ih this
      refine ⟨c :: line, rest, ?_, by simp [h2]⟩
      intro e
      rcases List.mem_cons.1 e with e | e
      · exact hc e.symm
      · exact h1 e

theorem atoi_digits_eq :
    ∀ (line : List Char) (acc : Nat), (∀ c ∈ line, is_digit c = true) →
      atoi_digits acc line = acc * 10 ^ line.length + decimal_value line := by
  intro line
  induction line with
  | nil => intro acc _; simp [atoi_digits, decimal_value]
  | cons c cs ih =>
    intro acc h
    have hc : is_digit c = true := h c (by simp)
    have hcs : ∀ d ∈ cs, is_digit d = true := fun d hd => h d (by simp [hd])
    simp only [atoi_digits, hc, if_true]
    rw [ih _ hcs]
    simp only [decimal_value, digit_value, List.reverse_cons, List.map_append, List.map_cons,
      List.map_nil, Nat.ofDigits_append, Nat.ofDigits_singleton, List.length_map,
      List.length_reverse, List.length_cons]
    ring

theorem decimal_value_lt :
    ∀ line : List Char, (∀ c ∈ line, is_digit c = true) →
      decimal_value line < 10 ^ line.length := by
  intro line h
  have := Nat.ofDigits_lt_base_pow_length (b := 10) (l := line.reverse.map digit_value)
    (by norm_num) (by
      intro x hx
      simp only [List.mem_map, List.mem_reverse] at hx
      obtain ⟨c, hc, rfl⟩ := hx
      have hd := (is_digit_iff c).1 (h c hc)
      have h2 : c.toNat ≤ '9'.toNat := hd.2
      have h3 : '9'.toNat = 57 := by decide
      have h4 : '0'.toNat = 48 := by decide
      simp only [digit_value]
      omega)
  simpa [decimal_value] using this

theorem atoi_of_digits (line : List Char) (hne : line ≠ [])
    (h : ∀ c ∈ line, is_digit c = true) : atoi line = (decimal_value line : Int) := by
  cases line with
  | nil => exact absurd rfl hne
  | cons c cs =>
    have hc : is_digit c = true := h c (by simp)
    have hsp : isspace c = false := by
      cases hs : isspace c with
      | false => rfl
      | true =>
        simp only [isspace, Bool.or_eq_true, decide_eq_true_eq] at hs
        rcases hs with ((((e | e) | e) | e) | e) | e <;>
          · subst e
            exact absurd hc (by decide)
    have hminus : c ≠ '-' := by
      rintro rfl
      exact absurd hc (by decide)
    have hplus : c ≠ '+' := by
      rintro rfl
      exact absurd hc (by decide)
    have hdrop : (c :: cs).dropWhile isspace = c :: cs := by
      simp [List.dropWhile, hsp]
    have hval := atoi_digits_eq (c :: cs) 0 h
    unfold atoi
    rw [hdrop]
    split
    · rename_i heq
      exact absurd (List.cons.inj heq).1 hminus
    · rename_i heq
      exact absurd (List.cons.inj heq).1 hplus
    · rw [hval]
      simp

theorem read_user_choice_line (line rest : List Char) (h : '\n' ∉ line) :
    ∃ r, example_read_user_choice (line ++ '\n' :: rest) = some r ∧ r.rest = rest ∧
      (r.rc = OPENNSL_E_NONE ∨ (r.rc = OPENNSL_E_FAIL ∧ r.choice = -1)) ∧
      (r.rc = OPENNSL_E_NONE ↔
        line ≠ [] ∧ (∀ c ∈ line, is_digit c = true) ∧ line.length ≤ MAX_DIGITS_IN_CHOICE) ∧
      (r.rc = OPENNSL_E_NONE → r.choice = atoi line) := by
  obtain ⟨D, V, h1, h2, h3⟩ := read_loop_line rest line [] true h (by simp)
  simp only [List.length_nil, Nat.zero_add, List.nil_append, true_and] at h2 h3
  by_cases hok : V = true ∧ D.length ≠ 0
  · have hD := h3 hok.1
    subst hD
    refine ⟨⟨OPENNSL_E_NONE, atoi D, rest⟩, ?_, rfl, Or.inl rfl, ?_, fun _ => rfl⟩
    · simp only [example_read_user_choice, h1]
      rw [if_pos hok]
    · have hne : D ≠ [] := by
        intro e
        exact hok.2 (by simp [e])
      simp only [true_iff]
      exact ⟨hne, h2.1 hok.1⟩
  · refine ⟨⟨OPENNSL_E_FAIL, -1, rest⟩, ?_, rfl, Or.inr ⟨rfl, rfl⟩, ?_, ?_⟩
    · simp only [example_read_user_choice, h1]
      rw [if_neg hok]
    · have hne : OPENNSL_E_FAIL ≠ OPENNSL_E_NONE := by decide
      simp only [hne, false_iff]
      rintro ⟨a, b⟩
      have hV : V = true := h2.2 b
      apply hok
      refine ⟨hV, ?_⟩
      rw [h3 hV]
      intro e
      exact a (List.length_eq_zero.1 e)
    · intro e
      have hne : OPENNSL_E_FAIL ≠ OPENNSL_E_NONE := by decide
      exact absurd e hne

/-- C6: on an input line (the characters before the first newline),
`example_read_user_choice` returns, and it returns `OPENNSL_E_NONE` exactly when the
line is not empty, holds only the characters `0`..`9` and has at most 5 characters;
in every other case it returns `OPENNSL_E_FAIL`. -/
theorem read_user_choice_success_iff (line rest : List Char) (h : '\n' ∉ line) :
    ∃ r, example_read_user_choice (line ++ '\n' :: rest) = some r ∧
      (r.rc = OPENNSL_E_NONE ↔
        line ≠ [] ∧ (∀ c ∈ line, '0' ≤ c ∧ c ≤ '9') ∧ line.length ≤ 5) ∧
      (r.rc = OPENNSL_E_FAIL ↔
        ¬ (line ≠ [] ∧ (∀ c ∈ line, '0' ≤ c ∧ c ≤ '9') ∧ line.length ≤ 5)) := by
  obtain ⟨r, h1, _, h3, h4, _⟩ := read_user_choice_line line rest h
  have hiff : (r.rc = OPENNSL_E_NONE ↔
      line ≠ [] ∧ (∀ c ∈ line, '0' ≤ c ∧ c ≤ '9') ∧ line.length ≤ 5) := by
    rw [h4]
    simp only [is_digit_iff, MAX_DIGITS_IN_CHOICE]
  refine ⟨r, h1, hiff, ?_⟩
  rw [← hiff]
  rcases h3 with e | ⟨e, _⟩
  · rw [e]
    simp only [not_true_eq_false, iff_false]
    decide
  · rw [e]
    simp only [true_iff]
    decide

/-- C6, on the lines the specification lists: `123` and `0` are accepted; the empty
line, `12a3` and `123456` are refused. -/
theorem read_user_choice_success_iff_witness :
    ('\n' ∉ "12a3".data ∧
      ∃ r, example_read_user_choice ("12a3".data ++ '\n' :: "1\n".data) = some r ∧
        (r.rc = OPENNSL_E_NONE ↔
          "12a3".data ≠ [] ∧ (∀ c ∈ "12a3".data, '0' ≤ c ∧ c ≤ '9') ∧
            "12a3".data.length ≤ 5) ∧
        (r.rc = OPENNSL_E_FAIL ↔
          ¬ ("12a3".data ≠ [] ∧ (∀ c ∈ "12a3".data, '0' ≤ c ∧ c ≤ '9') ∧
            "12a3".data.length ≤ 5))) ∧
    (example_read_user_choice "123\n".data).map ReadResult.rc = some OPENNSL_E_NONE ∧
    (example_read_user_choice "0\n".data).map ReadResult.rc = some OPENNSL_E_NONE ∧
    (example_read_user_choice "\n".data).map ReadResult.rc = some OPENNSL_E_FAIL ∧
    (example_read_user_choice "12a3\n".data).map ReadResult.rc = some OPENNSL_E_FAIL ∧
    (example_read_user_choice "123456\n".data).map ReadResult.rc = some OPENNSL_E_FAIL :=
  ⟨⟨by decide, read_user_choice_success_iff "12a3".data "1\n".data (by decide)⟩,
    by decide, by decide, by decide, by decide, by decide⟩

/-- C7: on a line of 1 to 5 decimal digits, `example_read_user_choice` returns
`OPENNSL_E_NONE` and stores the base-10 value of the digit string; that value is at
most 99999, so it fits the `int` it is stored in. -/
theorem read_user_choice_value (line rest : List Char)
    (hdigits : ∀ c ∈ line, '0' ≤ c ∧ c ≤ '9') (h1 : 1 ≤ line.length)
    (h5 : line.length ≤ 5) :
    example_read_user_choice (line ++ '\n' :: rest)
        = some ⟨OPENNSL_E_NONE, (decimal_value line : Int), rest⟩ ∧
      decimal_value line ≤ 99999 ∧ (decimal_value line : Int) < 2 ^ 31 := by
  have hd : ∀ c ∈ line, is_digit c = true := fun c hc => (is_digit_iff c).2 (hdigits c hc)
  have hnl : '\n' ∉ line := by
    intro hmem
    exact absurd (hd _ hmem) (by decide)
  have hne : line ≠ [] := by
    intro e
    rw [e] at h1
    simp at h1
  obtain ⟨r, e1, e2, _, e4, e5⟩ := read_user_choice_line line rest hnl
  have hrc : r.rc = OPENNSL_E_NONE := e4.2 ⟨hne, hd, h5⟩
  have hch : r.choice = (decimal_value line : Int) := by
    rw [e5 hrc, atoi_of_digits line hne hd]
  have hlt := decimal_value_lt line hd
  have hpow : 10 ^ line.length ≤ 10 ^ 5 := Nat.pow_le_pow_right (by norm_num) h5
  have hb : decimal_value line ≤ 99999 := by
    have : decimal_value line < 10 ^ 5 := lt_of_lt_of_le hlt hpow
    norm_num at this
    omega
  refine ⟨?_, hb, ?_⟩
  · rw [e1]
    cases r with
    | mk rc choice rs =>
      simp only at hrc hch e2
      rw [hrc, hch, e2]
  · have : (decimal_value line : Int) ≤ 99999 := by exact_mod_cast hb
    norm_num
    omega

/-- C7, on the line `123` (and the line `0`): the stored values are 123 and 0. -/
theorem read_user_choice_value_witness :
    ((∀ c ∈ "123".data, '0' ≤ c ∧ c ≤ '9') ∧ 1 ≤ "123".data.length ∧
      "123".data.length ≤ 5 ∧
      example_read_user_choice ("123".data ++ '\n' :: [])
        = some ⟨OPENNSL_E_NONE, (decimal_value "123".data : Int), []⟩ ∧
      decimal_value "123".data ≤ 99999 ∧ (decimal_value "123".data : Int) < 2 ^ 31) ∧
    example_read_user_choice "123\n".data = some ⟨OPENNSL_E_NONE, 123, []⟩ ∧
    example_read_user_choice "0\n".data = some ⟨OPENNSL_E_NONE, 0, []⟩ :=
  ⟨⟨by decide, by decide, by decide,
      read_user_choice_value "123".data [] (by decide) (by decide) (by decide)⟩,
    by decide, by decide⟩

/-- C10: on an input stream that holds a newline, `example_read_user_choice`
returns, whether the line is valid or not, and what it leaves of the stream is
exactly what follows the first newline. -/
theorem read_user_choice_consumes_line (stdin : List Char) (h : '\n' ∈ stdin) :
    ∃ r line, example_read_user_choice stdin = some r ∧ '\n' ∉ line ∧
      stdin = line ++ '\n' :: r.rest := by
  obtain ⟨line, rest, h1, h2⟩ := split_at_newline stdin h
  obtain ⟨r, e1, e2, _⟩ := read_user_choice_line line rest h1
  refine ⟨r, line, ?_, h1, ?_⟩
  · rw [h2, e1]
  · rw [e2, h2]

/-- C10, on streams whose first line is invalid: `12a3` and `123456` are read to the
end of the line, and the next line `1` is left whole. -/
theorem read_user_choice_consumes_line_witness :
    ('\n' ∈ "12a3\n1\n".data ∧
      ∃ r line, example_read_user_choice "12a3\n1\n".data = some r ∧ '\n' ∉ line ∧
        "12a3\n1\n".data = line ++ '\n' :: r.rest) ∧
    example_read_user_choice "12a3\n1\n".data = some ⟨OPENNSL_E_FAIL, -1, "1\n".data⟩ ∧
    example_read_user_choice "123456\n1\n".data = some ⟨OPENNSL_E_FAIL, -1, "1\n".data⟩ :=
  ⟨⟨by decide, read_user_choice_consumes_line "12a3\n1\n".data (by decide)⟩,
    by decide, by decide⟩

/-! ## The shape of the traces of the loops -/

section Shapes

variable {σ : Type}

theorem range_split {n c : Nat} {pre post : List Nat}
    (h : List.range n = pre ++ c :: post) : pre = List.range c ∧ c < n := by
  have hlen : (List.range n).length = (pre ++ c :: post).length := by rw [h]
  rw [List.length_range, List.length_append, List.length_cons] at hlen
  have hlt : pre.length < n := by omega
  have h1 : (List.range n)[pre.length]? = some pre.length := List.getElem?_range hlt
  have h2 : (pre ++ c :: post)[pre.length]? = some c := by
    rw [List.getElem?_append_right (Nat.le_refl _)]
    simp
  rw [h, h2] at h1
  have hc : c = pre.length := Option.some.inj h1
  have h3 : (List.range n).take c = pre := by
    rw [h]
    exact List.take_left' hc.symm
  rw [List.take_range] at h3
  have hmin : min c n = c := by omega
  rw [hmin] at h3
  exact ⟨h3.symm, by omega⟩

theorem get_ok_events_congr (unit gport : Int) (options index : Nat) (v w : Nat → Nat) :
    ∀ l : List Nat, (∀ x ∈ l, v x = w x) →
      get_ok_events unit gport options index v l =
        get_ok_events unit gport options index w l := by
  intro l
  induction l with
  | nil => intro _; rfl
  | cons c more ih =>
    intro h
    have hc : v c = w c := h c (by simp)
    have hm : ∀ x ∈ more, v x = w x := fun x hx => h x (by simp [hx])
    simp only [get_ok_events, hc, ih hm]

theorem sync_loop_shape (g : Gateway σ) (unit : Int) :
    ∀ (l : List Nat) (s : σ),
      (sync_loop g unit l s).2 = sync_ok_events unit l ∨
      ∃ pre i post rc, l = pre ++ i :: post ∧ rc ≠ OPENNSL_E_NONE ∧
        (sync_loop g unit l s).2 = sync_ok_events unit pre ++
          [.bst_stat_sync unit (id_list i).bid rc,
           .printf fmt_sync_failed [.int rc, .str (g.opennsl_errmsg rc)]] := by
  intro l
  induction l with
  | nil => intro s; exact Or.inl rfl
  | cons i more ih =>
    intro s
    by_cases hrc : (g.opennsl_cosq_bst_stat_sync s unit (id_list i).bid).2 ≠ OPENNSL_E_NONE
    · right
      refine ⟨[], i, more, _, rfl, hrc, ?_⟩
      simp only [sync_loop, if_pos hrc, sync_ok_events, List.nil_append]
    · have h0 := not_not.1 hrc
      simp only [sync_loop, if_neg hrc]
      rcases ih (g.opennsl_cosq_bst_stat_sync s unit (id_list i).bid).1 with h | h
      · left
        simp only [h, sync_ok_events, h0]
      · right
        obtain ⟨pre, j, post, rc, e1, e2, e3⟩ := h
        refine ⟨i :: pre, j, post, rc, by simp [e1], e2, ?_⟩
        simp only [e3, sync_ok_events, h0, List.cons_append]

theorem get_loop_shape (g : Gateway σ) (unit gport : Int) (options index : Nat) :
    ∀ (l : List Nat) (s : σ) (val : Val), l.Nodup →
      ∃ v : Nat → Nat,
        (get_loop g unit gport options index l s val).2.2 =
          get_ok_events unit gport options index v l ∨
        ∃ pre c post rc x, l = pre ++ c :: post ∧ rc ≠ OPENNSL_E_NONE ∧
          (get_loop g unit gport options index l s val).2.2 =
            get_ok_events unit gport options index v pre ++
              [.bst_stat_get unit gport c (id_list index).bid options rc x,
               .printf fmt_get_failed [.int rc, .str (g.opennsl_errmsg rc)]] := by
  intro l
  induction l with
  | nil => intro s val _; exact ⟨fun _ => 0, Or.inl rfl⟩
  | cons c more ih =>
    intro s val hnd
    have hc : c ∉ more := (List.nodup_cons.1 hnd).1
    have hmore : more.Nodup := (List.nodup_cons.1 hnd).2
    by_cases hrc : (g.opennsl_cosq_bst_stat_get s unit gport c (id_list index).bid options
        (val index c)).2.1 ≠ OPENNSL_E_NONE
    · refine ⟨fun _ => 0, Or.inr ⟨[], c, more, _,
        (g.opennsl_cosq_bst_stat_get s unit gport c (id_list index).bid options
          (val index c)).2.2, rfl, hrc, ?_⟩⟩
      simp only [get_loop, if_pos hrc, get_ok_events, List.nil_append]
    · have h0 := not_not.1 hrc
      obtain ⟨v, hv⟩ := ih
        (g.opennsl_cosq_bst_stat_get s unit gport c (id_list index).bid options
          (val index c)).1
        (val.set index c (g.opennsl_cosq_bst_stat_get s unit gport c (id_list index).bid
          options (val index c)).2.2) hmore
      let x := (g.opennsl_cosq_bst_stat_get s unit gport c (id_list index).bid options
          (val index c)).2.2
      let w : Nat → Nat := fun q => if q = c then x else v q
      have hw : ∀ l : List Nat, c ∉ l →
          get_ok_events unit gport options index w l =
            get_ok_events unit gport options index v l := by
        intro l hl
        apply get_ok_events_congr
        intro q hq
        have : q ≠ c := fun e => hl (e ▸ hq)
        simp only [w, if_neg this]
      have hwc : w c = x := by simp only [w, if_true]
      have hset : (val.set index c x) index c = x := by simp [Val.set]
      refine ⟨w, ?_⟩
      simp only [get_loop, if_neg hrc]
      rcases hv with h | h
      · left
        rw [h]
        simp only [get_ok_events, hw more hc, hwc, h0]
        rw [hset]
      · right
        obtain ⟨pre, d, post, rc, y, e1, e2, e3⟩ := h
        have hpre : c ∉ pre := by
          intro hm
          apply hc
          rw [e1]
          exact List.mem_append_left _ hm
        refine ⟨c :: pre, d, post, rc, y, by simp [e1], e2, ?_⟩
        rw [e3]
        simp only [get_ok_events, hw pre hpre, hwc, h0, List.cons_append]
        rw [hset]

theorem clear_loop_shape (g : Gateway σ) (unit gport : Int) (index : Nat) :
    ∀ (l : List Nat) (s : σ),
      (clear_loop g unit gport index l s).2 = clear_ok_events unit gport index l ∨
      ∃ pre c post rc, l = pre ++ c :: post ∧ rc ≠ OPENNSL_E_NONE ∧
        (clear_loop g unit gport index l s).2 = clear_ok_events unit gport index pre ++
          [.bst_stat_clear unit gport c (id_list index).bid rc,
           .printf fmt_clear_failed [.int rc, .str (g.opennsl_errmsg rc)]] := by
  intro l
  induction l with
  | nil => intro s; exact Or.inl rfl
  | cons c more ih =>
    intro s
    by_cases hrc :
        (g.opennsl_cosq_bst_stat_clear s unit gport c (id_list index).bid).2 ≠ OPENNSL_E_NONE
    · right
      refine ⟨[], c, more, _, rfl, hrc, ?_⟩
      simp only [clear_loop, if_pos hrc, clear_ok_events, List.nil_append]
    · have h0 := not_not.1 hrc
      simp only [clear_loop, if_neg hrc]
      rcases ih (g.opennsl_cosq_bst_stat_clear s unit gport c (id_list index).bid).1 with h | h
      · left
        simp only [h, clear_ok_events, h0]
      · right
        obtain ⟨pre, d, post, rc, e1, e2, e3⟩ := h
        refine ⟨c :: pre, d, post, rc, by simp [e1], e2, ?_⟩
        simp only [e3, clear_ok_events, h0, List.cons_append]

end Shapes

/-! ## Observations on traces -/

section Observations

variable {σ : Type}

theorem sync_calls_append (a b : List Event) :
    sync_calls (a ++ b) = sync_calls a ++ sync_calls b := by
  induction a with
  | nil => rfl
  | cons e t ih => cases e <;> simp [sync_calls, ih]

theorem get_calls_append (a b : List Event) :
    get_calls (a ++ b) = get_calls a ++ get_calls b := by
  induction a with
  | nil => rfl
  | cons e t ih => cases e <;> simp [get_calls, ih]

theorem clear_calls_append (a b : List Event) :
    clear_calls (a ++ b) = clear_calls a ++ clear_calls b := by
  induction a with
  | nil => rfl
  | cons e t ih => cases e <;> simp [clear_calls, ih]

theorem library_calls_append (a b : List Event) :
    library_calls (a ++ b) = library_calls a ++ library_calls b := by
  induction a with
  | nil => rfl
  | cons e t ih => cases e <;> simp [library_calls, ih]

theorem console_append (a b : List Event) : console (a ++ b) = console a ++ console b := by
  induction a with
  | nil => rfl
  | cons e t ih => cases e <;> simp [console, ih]

theorem value_lines_append (name : String) (a b : List Event) :
    value_lines name (a ++ b) = value_lines name a + value_lines name b := by
  induction a with
  | nil => simp [value_lines]
  | cons e t ih =>
    cases e with
    | printf fmt args =>
      cases args with
      | nil => simp [value_lines, ih]
      | cons x xs =>
        cases x <;> simp [value_lines, ih, Nat.add_assoc]
    | _ => simp [value_lines, ih]

theorem mem_sync_calls {unit : Int} {bid : opennsl_bst_stat_id_t} {rc : Int} :
    ∀ {t : List Event}, Event.bst_stat_sync unit bid rc ∈ t → bid ∈ sync_calls t := by
  intro t
  induction t with
  | nil => intro h; simp at h
  | cons e t ih =>
    intro h
    rcases List.mem_cons.1 h with h | h
    · subst h
      simp [sync_calls]
    · have := ih h
      cases e <;> simp [sync_calls, this]

theorem mem_get_calls {unit gport : Int} {cosq : Nat} {bid : opennsl_bst_stat_id_t}
    {options : Nat} {rc : Int} {x : Nat} :
    ∀ {t : List Event}, Event.bst_stat_get unit gport cosq bid options rc x ∈ t →
      (bid, cosq) ∈ get_calls t := by
  intro t
  induction t with
  | nil => intro h; simp at h
  | cons e t ih =>
    intro h
    rcases List.mem_cons.1 h with h | h
    · subst h
      simp [get_calls]
    · have := ih h
      cases e <;> simp [get_calls, this]

theorem mem_clear_calls {unit gport : Int} {cosq : Nat} {bid : opennsl_bst_stat_id_t}
    {rc : Int} :
    ∀ {t : List Event}, Event.bst_stat_clear unit gport cosq bid rc ∈ t →
      (bid, cosq) ∈ clear_calls t := by
  intro t
  induction t with
  | nil => intro h; simp at h
  | cons e t ih =>
    intro h
    rcases List.mem_cons.1 h with h | h
    · subst h
      simp [clear_calls]
    · have := ih h
      cases e <;> simp [clear_calls, this]

theorem sync_ok_events_obs (unit : Int) (l : List Nat) :
    sync_calls (sync_ok_events unit l) = l.map (fun i => (id_list i).bid) ∧
    get_calls (sync_ok_events unit l) = [] ∧
    clear_calls (sync_ok_events unit l) = [] ∧
    (∀ name, value_lines name (sync_ok_events unit l) = 0) ∧
    console (sync_ok_events unit l) = [] ∧
    (∀ e ∈ sync_ok_events unit l, e.failed = false) := by
  induction l with
  | nil => simp [sync_ok_events, sync_calls, get_calls, clear_calls, value_lines, console]
  | cons i more ih =>
    obtain ⟨h1, h2, h3, h4, h5, h6⟩ := ih
    refine ⟨?_, ?_, ?_, ?_, ?_, ?_⟩
    · simp [sync_ok_events, sync_calls, h1]
    · simp [sync_ok_events, get_calls, h2]
    · simp [sync_ok_events, clear_calls, h3]
    · intro name
      simp [sync_ok_events, value_lines, h4]
    · simp [sync_ok_events, console, h5]
    · intro e he
      simp only [sync_ok_events, List.mem_cons] at he
      rcases he with he | he
      · subst he
        simp [Event.failed]
      · exact h6 e he

theorem get_ok_events_obs (unit gport : Int) (options index : Nat) (v : Nat → Nat)
    (l : List Nat) :
    sync_calls (get_ok_events unit gport options index v l) = [] ∧
    get_calls (get_ok_events unit gport options index v l) =
      l.map (fun c => ((id_list index).bid, c)) ∧
    clear_calls (get_ok_events unit gport options index v l) = [] ∧
    (∀ name, value_lines name (get_ok_events unit gport options index v l) =
      if name = (id_list index).name then l.length else 0) ∧
    (∀ e ∈ get_ok_events unit gport options index v l, e.failed = false) := by
  induction l with
  | nil =>
    simp [get_ok_events, sync_calls, get_calls, clear_calls, value_lines]
  | cons c more ih =>
    obtain ⟨h1, h2, h3, h4, h5⟩ := ih
    refine ⟨?_, ?_, ?_, ?_, ?_⟩
    · simp [get_ok_events, sync_calls, h1]
    · simp [get_ok_events, get_calls, h2]
    · simp [get_ok_events, clear_calls, h3]
    · intro name
      by_cases hn : name = (id_list index).name
      · simp [get_ok_events, value_lines, h4, hn, Nat.add_comm]
      · have hn2 : ¬ (id_list index).name = name := fun e => hn e.symm
        simp [get_ok_events, value_lines, h4, hn, hn2]
    · intro e he
      simp only [get_ok_events, List.mem_cons] at he
      rcases he with he | he | he
      · subst he
        simp [Event.failed]
      · subst he
        simp [Event.failed]
      · exact h5 e he

theorem clear_ok_events_obs (unit gport : Int) (index : Nat) (l : List Nat) :
    sync_calls (clear_ok_events unit gport index l) = [] ∧
    get_calls (clear_ok_events unit gport index l) = [] ∧
    clear_calls (clear_ok_events unit gport index l) =
      l.map (fun c => ((id_list index).bid, c)) ∧
    (∀ e ∈ clear_ok_events unit gport index l, e.failed = false) := by
  induction l with
  | nil => simp [clear_ok_events, sync_calls, get_calls, clear_calls]
  | cons c more ih =>
    obtain ⟨h1, h2, h3, h4⟩ := ih
    refine ⟨?_, ?_, ?_, ?_⟩
    · simp [clear_ok_events, sync_calls, h1]
    · simp [clear_ok_events, get_calls, h2]
    · simp [clear_ok_events, clear_calls, h3]
    · intro e he
      simp only [clear_ok_events, List.mem_cons] at he
      rcases he with he | he
      · subst he
        simp [Event.failed]
      · exact h4 e he

end Observations

/-! ## What one loop contributes to the trace -/

section Blocks

variable {σ : Type}

theorem range_counters : List.range MAX_COUNTERS = [0, 1, 2, 3] := by decide

theorem range_cosq : List.range (7 + 1) = List.range 8 := rfl

theorem bid_injective {i j : Nat} (hi : i < MAX_COUNTERS) (hj : j < MAX_COUNTERS)
    (h : (id_list i).bid = (id_list j).bid) : i = j := by
  simp only [MAX_COUNTERS] at hi hj
  interval_cases i <;> interval_cases j <;> first | rfl | exact absurd h (by decide)

theorem name_injective {i j : Nat} (hi : i < MAX_COUNTERS) (hj : j < MAX_COUNTERS)
    (h : (id_list i).name = (id_list j).name) : i = j := by
  simp only [MAX_COUNTERS] at hi hj
  interval_cases i <;> interval_cases j <;> first | rfl | exact absurd h (by decide)

theorem sync_mem_ok_events {unit unit1 : Int} {bid : opennsl_bst_stat_id_t} {rc : Int}
    {l : List Nat} (h : Event.bst_stat_sync unit1 bid rc ∈ sync_ok_events unit l) :
    rc = OPENNSL_E_NONE := by
  have := (sync_ok_events_obs unit l).2.2.2.2.2 _ h
  simpa [Event.failed] using this

theorem get_mem_ok_events {unit unit1 gport gport1 : Int} {options options1 index : Nat}
    {v : Nat → Nat} {cosq : Nat} {bid : opennsl_bst_stat_id_t} {rc : Int} {x : Nat}
    {l : List Nat}
    (h : Event.bst_stat_get unit1 gport1 cosq bid options1 rc x ∈
      get_ok_events unit gport options index v l) :
    rc = OPENNSL_E_NONE := by
  have := (get_ok_events_obs unit gport options index v l).2.2.2.2 _ h
  simpa [Event.failed] using this

theorem clear_mem_ok_events {unit unit1 gport gport1 : Int} {index : Nat}
    {cosq : Nat} {bid : opennsl_bst_stat_id_t} {rc : Int} {l : List Nat}
    (h : Event.bst_stat_clear unit1 gport1 cosq bid rc ∈ clear_ok_events unit gport index l) :
    rc = OPENNSL_E_NONE := by
  have := (clear_ok_events_obs unit gport index l).2.2.2 _ h
  simpa [Event.failed] using this

theorem sync_loop_block (g : Gateway σ) (unit : Int) (s : σ) :
    SyncBlock g.opennsl_errmsg unit (sync_loop g unit (List.range MAX_COUNTERS) s).2 := by
  rcases sync_loop_shape g unit (List.range MAX_COUNTERS) s with h | h
  · exact Or.inl h
  · obtain ⟨pre, i, post, rc, e1, e2, e3⟩ := h
    obtain ⟨hpre, hi⟩ := range_split e1
    refine Or.inr ⟨i, rc, hi, e2, ?_⟩
    rw [e3, hpre]

theorem get_loop_block (g : Gateway σ) (unit gport : Int) (options index : Nat) (s : σ)
    (val : Val) :
    GetBlock g.opennsl_errmsg unit gport options index
      (get_loop g unit gport options index (List.range (7 + 1)) s val).2.2 := by
  obtain ⟨v, h⟩ := get_loop_shape g unit gport options index (List.range (7 + 1)) s val
    (List.nodup_range _)
  refine ⟨v, ?_⟩
  rcases h with h | h
  · exact Or.inl h
  · obtain ⟨pre, c, post, rc, x, e1, e2, e3⟩ := h
    obtain ⟨hpre, hc⟩ := range_split e1
    refine Or.inr ⟨c, rc, x, hc, e2, ?_⟩
    rw [e3, hpre]

theorem clear_loop_block (g : Gateway σ) (unit gport : Int) (index : Nat) (s : σ) :
    ClearBlock g.opennsl_errmsg unit gport index
      (clear_loop g unit gport index (List.range (7 + 1)) s).2 := by
  rcases clear_loop_shape g unit gport index (List.range (7 + 1)) s with h | h
  · exact Or.inl h
  · obtain ⟨pre, c, post, rc, e1, e2, e3⟩ := h
    obtain ⟨hpre, hc⟩ := range_split e1
    refine Or.inr ⟨c, rc, hc, e2, ?_⟩
    rw [e3, hpre]

theorem sync_block_facts {errmsg : Int → String} {unit : Int} {S : List Event}
    (h : SyncBlock errmsg unit S) :
    get_calls S = [] ∧ clear_calls S = [] ∧ (∀ name, value_lines name S = 0) ∧
    ((∀ e ∈ S, e.failed = false) → S = sync_ok_events unit (List.range MAX_COUNTERS)) ∧
    (∀ unit1 k rc, k < MAX_COUNTERS → rc ≠ OPENNSL_E_NONE →
      Event.bst_stat_sync unit1 (id_list k).bid rc ∈ S →
      sync_calls S = (List.range (k + 1)).map (fun i => (id_list i).bid)) := by
  rcases h with h | ⟨i, rc, hi, hrc, h⟩
  · subst h
    obtain ⟨_, h2, h3, h4, _, h6⟩ := sync_ok_events_obs unit (List.range MAX_COUNTERS)
    refine ⟨h2, h3, h4, fun _ => rfl, ?_⟩
    intro unit1 k rc1 _ hrc1 hmem
    exact absurd (sync_mem_ok_events hmem) hrc1
  · subst h
    obtain ⟨h1, h2, h3, h4, _, _⟩ := sync_ok_events_obs unit (List.range i)
    refine ⟨?_, ?_, ?_, ?_, ?_⟩
    · simp [get_calls_append, h2, get_calls]
    · simp [clear_calls_append, h3, clear_calls]
    · intro name
      simp [value_lines_append, h4, value_lines]
    · intro hall
      have := hall (.bst_stat_sync unit (id_list i).bid rc) (by simp)
      simp only [Event.failed, decide_eq_false_iff_not, not_not] at this
      exact absurd this hrc
    · intro unit1 k rc1 hk hrc1 hmem
      rcases List.mem_append.1 hmem with hm | hm
      · exact absurd (sync_mem_ok_events hm) hrc1
      · simp only [List.mem_cons, Event.bst_stat_sync.injEq, List.mem_singleton,
          List.not_mem_nil, or_false] at hm
        rcases hm with ⟨_, hb, _⟩ | hm
        · have hki : k = i := bid_injective hk hi hb
          subst hki
          simp [sync_calls_append, h1, sync_calls, List.range_succ]
        · exact absurd hm (by simp)

theorem get_block_facts {errmsg : Int → String} {unit gport : Int} {options index : Nat}
    {B : List Event} (h : GetBlock errmsg unit gport options index B) :
    sync_calls B = [] ∧ clear_calls B = [] ∧
    (∀ name, name ≠ (id_list index).name → value_lines name B = 0) ∧
    ((∀ e ∈ B, e.failed = false) →
      ∃ v, B = get_ok_events unit gport options index v (List.range 8)) ∧
    ∃ n, 1 ≤ n ∧ n ≤ 8 ∧
      get_calls B = (List.range n).map (fun c => ((id_list index).bid, c)) ∧
      (∀ unit1 gport1 q bid options1 rc x, rc ≠ OPENNSL_E_NONE →
        Event.bst_stat_get unit1 gport1 q bid options1 rc x ∈ B →
        n = q + 1 ∧ value_lines (id_list index).name B = q) := by
  obtain ⟨v, h | ⟨c, rc, x, hc, hrc, h⟩⟩ := h
  · subst h
    obtain ⟨h1, h2, h3, h4, h5⟩ := get_ok_events_obs unit gport options index v (List.range 8)
    refine ⟨h1, h3, ?_, fun _ => ⟨v, rfl⟩, 8, by norm_num, le_refl _, h2, ?_⟩
    · intro name hn
      rw [h4, if_neg hn]
    · intro unit1 gport1 q bid options1 rc x hrc hmem
      exact absurd (get_mem_ok_events hmem) hrc
  · subst h
    obtain ⟨h1, h2, h3, h4, h5⟩ := get_ok_events_obs unit gport options index v (List.range c)
    refine ⟨?_, ?_, ?_, ?_, c + 1, by omega, by omega, ?_, ?_⟩
    · simp [sync_calls_append, h1, sync_calls]
    · simp [clear_calls_append, h3, clear_calls]
    · intro name hn
      simp [value_lines_append, h4, hn, value_lines]
    · intro hall
      have := hall (.bst_stat_get unit gport c (id_list index).bid options rc x) (by simp)
      simp only [Event.failed, decide_eq_false_iff_not, not_not] at this
      exact absurd this hrc
    · simp [get_calls_append, h2, get_calls, List.range_succ]
    · intro unit1 gport1 q bid options1 rc1 x1 hrc1 hmem
      rcases List.mem_append.1 hmem with hm | hm
      · exact absurd (get_mem_ok_events hm) hrc1
      · simp only [List.mem_cons, Event.bst_stat_get.injEq, List.mem_singleton,
          List.not_mem_nil, or_false] at hm
        rcases hm with ⟨_, _, hq, _⟩ | hm
        · subst hq
          refine ⟨rfl, ?_⟩
          simp [value_lines_append, h4, value_lines]
        · exact absurd hm (by simp)

theorem clear_block_facts {errmsg : Int → String} {unit gport : Int} {index : Nat}
    {B : List Event} (h : ClearBlock errmsg unit gport index B) :
    sync_calls B = [] ∧ get_calls B = [] ∧
    ∃ n, 1 ≤ n ∧ n ≤ 8 ∧
      clear_calls B = (List.range n).map (fun c => ((id_list index).bid, c)) ∧
      (∀ unit1 gport1 q bid rc, rc ≠ OPENNSL_E_NONE →
        Event.bst_stat_clear unit1 gport1 q bid rc ∈ B → n = q + 1) ∧
      ((∀ q rc, Event.bst_stat_clear unit gport q (id_list index).bid rc ∈ B →
        rc = OPENNSL_E_NONE) → n = 8) := by
  rcases h with h | ⟨c, rc, hc, hrc, h⟩
  · subst h
    obtain ⟨h1, h2, h3, h4⟩ := clear_ok_events_obs unit gport index (List.range 8)
    refine ⟨h1, h2, 8, by norm_num, le_refl _, h3, ?_, fun _ => rfl⟩
    intro unit1 gport1 q bid rc hrc hmem
    exact absurd (clear_mem_ok_events hmem) hrc
  · subst h
    obtain ⟨h1, h2, h3, h4⟩ := clear_ok_events_obs unit gport index (List.range c)
    refine ⟨?_, ?_, c + 1, by omega, by omega, ?_, ?_, ?_⟩
    · simp [sync_calls_append, h1, sync_calls]
    · simp [get_calls_append, h2, get_calls]
    · simp [clear_calls_append, h3, clear_calls, List.range_succ]
    · intro unit1 gport1 q bid rc1 hrc1 hmem
      rcases List.mem_append.1 hmem with hm | hm
      · exact absurd (clear_mem_ok_events hm) hrc1
      · simp only [List.mem_cons, Event.bst_stat_clear.injEq, List.mem_singleton,
          List.not_mem_nil, or_false] at hm
        rcases hm with ⟨_, _, hq, _⟩ | hm
        · subst hq
          rfl
        · exact absurd hm (by simp)
    · intro hall
      exact absurd (hall c rc (by simp)) hrc

end Blocks

/-! ## The display and the clear operation as sequences of loops -/

section Operations

variable {σ : Type}

theorem display_stats_blocks (g : Gateway σ) (unit gport : Int) (options : Nat) (s : σ)
    (val : Val) :
    ∃ S B0 B1 B2 B3,
      (display_stats g unit gport options s val).2.2 =
        S ++ (B0 ++ .printf fmt_newline [] :: (B1 ++ .printf fmt_newline [] ::
          (B2 ++ .printf fmt_newline [] :: (B3 ++ [.printf fmt_newline []])))) ∧
      SyncBlock g.opennsl_errmsg unit S ∧
      GetBlock g.opennsl_errmsg unit gport options 0 B0 ∧
      GetBlock g.opennsl_errmsg unit gport options 1 B1 ∧
      GetBlock g.opennsl_errmsg unit gport options 2 B2 ∧
      GetBlock g.opennsl_errmsg unit gport options 3 B3 := by
  let a := sync_loop g unit (List.range MAX_COUNTERS) s
  let r0 := get_loop g unit gport options 0 (List.range (7 + 1)) a.1 val
  let r1 := get_loop g unit gport options 1 (List.range (7 + 1)) r0.1 r0.2.1
  let r2 := get_loop g unit gport options 2 (List.range (7 + 1)) r1.1 r1.2.1
  let r3 := get_loop g unit gport options 3 (List.range (7 + 1)) r2.1 r2.2.1
  refine ⟨a.2, r0.2.2, r1.2.2, r2.2.2, r3.2.2, ?_, sync_loop_block g unit s,
    get_loop_block g unit gport options 0 _ _, get_loop_block g unit gport options 1 _ _,
    get_loop_block g unit gport options 2 _ _, get_loop_block g unit gport options 3 _ _⟩
  rfl

theorem clear_stats_blocks (g : Gateway σ) (unit gport port : Int) (s : σ) :
    ∃ B0 B1 B2 B3,
      (clear_stats g unit gport port s).2 =
        B0 ++ .printf fmt_newline [] :: (B1 ++ .printf fmt_newline [] ::
          (B2 ++ .printf fmt_newline [] :: (B3 ++ [.printf fmt_newline []]))) ++
          [.printf fmt_stats_cleared [.int port]] ∧
      ClearBlock g.opennsl_errmsg unit gport 0 B0 ∧
      ClearBlock g.opennsl_errmsg unit gport 1 B1 ∧
      ClearBlock g.opennsl_errmsg unit gport 2 B2 ∧
      ClearBlock g.opennsl_errmsg unit gport 3 B3 := by
  let r0 := clear_loop g unit gport 0 (List.range (7 + 1)) s
  let r1 := clear_loop g unit gport 1 (List.range (7 + 1)) r0.1
  let r2 := clear_loop g unit gport 2 (List.range (7 + 1)) r1.1
  let r3 := clear_loop g unit gport 3 (List.range (7 + 1)) r2.1
  refine ⟨r0.2, r1.2, r2.2, r3.2, ?_, clear_loop_block g unit gport 0 _,
    clear_loop_block g unit gport 1 _, clear_loop_block g unit gport 2 _,
    clear_loop_block g unit gport 3 _⟩
  rfl

theorem calls_in_order_four (n0 n1 n2 n3 : Nat) :
    calls_in_order (fun i => match i with | 0 => n0 | 1 => n1 | 2 => n2 | _ => n3) =
      (List.range n0).map (fun c => ((id_list 0).bid, c)) ++
      ((List.range n1).map (fun c => ((id_list 1).bid, c)) ++
      ((List.range n2).map (fun c => ((id_list 2).bid, c)) ++
      (List.range n3).map (fun c => ((id_list 3).bid, c)))) := by
  simp [calls_in_order, range_counters, List.flatMap]

theorem map_range_head {α : Type} (f : Nat → α) {n : Nat} (h : 1 ≤ n) :
    ∃ tl, (List.range n).map f = f 0 :: tl := by
  obtain ⟨m, rfl⟩ : ∃ m, n = m + 1 := ⟨n - 1, by omega⟩
  refine ⟨(List.range m).map (fun i => f (i + 1)), ?_⟩
  rw [List.range_succ_eq_map]
  simp [List.map_map, Function.comp_def]

theorem filter_kind (i k n : Nat) (hi : i < MAX_COUNTERS) (hk : k < MAX_COUNTERS) :
    ((List.range n).map (fun c => ((id_list i).bid, c))).filter
        (fun p => decide (p.1 = (id_list k).bid)) =
      if i = k then (List.range n).map (fun c => ((id_list i).bid, c)) else [] := by
  by_cases h : i = k
  · subst h
    rw [if_pos rfl]
    apply List.filter_eq_self.2
    intro a ha
    simp only [List.mem_map] at ha
    obtain ⟨c, _, rfl⟩ := ha
    simp
  · rw [if_neg h]
    apply List.filter_eq_nil_iff.2
    intro a ha
    simp only [List.mem_map] at ha
    obtain ⟨c, _, rfl⟩ := ha
    simp only [decide_eq_true_eq]
    intro e
    exact h (bid_injective hi hk e)

end Operations

/-! ## The display operation -/

section Display

variable {σ : Type}

/-- The two loops of the display operation, on every device: when the synchronisation of the
kind of catalog index `k` fails, the synchronisation calls are exactly those of the
indices `0..k` (none for an index above `k`), and the read phase still runs: the
read calls are, kind after kind in catalog order, the queues from 0 upwards of each
of the 4 kinds, at least queue 0 for each; every synchronisation call comes before
every read call. -/
theorem display_stats_sync_failure (g : Gateway σ) (unit gport : Int) (options : Nat) (s : σ)
    (val : Val) (k : Nat) (hk : k < MAX_COUNTERS) (rc : Int) (hrc : rc ≠ OPENNSL_E_NONE)
    (hfail : Event.bst_stat_sync unit (id_list k).bid rc ∈
      (display_stats g unit gport options s val).2.2) :
    sync_calls (display_stats g unit gport options s val).2.2 =
      (List.range (k + 1)).map (fun i => (id_list i).bid) ∧
    (∃ n : Nat → Nat, (∀ i, 1 ≤ n i ∧ n i ≤ 8) ∧
      get_calls (display_stats g unit gport options s val).2.2 = calls_in_order n) ∧
    ∃ t1 t2, (display_stats g unit gport options s val).2.2 = t1 ++ t2 ∧
      get_calls t1 = [] ∧ sync_calls t2 = [] := by
  obtain ⟨S, B0, B1, B2, B3, hT, hS, h0, h1, h2, h3⟩ :=
    display_stats_blocks g unit gport options s val
  obtain ⟨sg, _, _, _, sfail⟩ := sync_block_facts hS
  obtain ⟨a0, _, _, _, n0, l0, u0, g0, _⟩ := get_block_facts h0
  obtain ⟨a1, _, _, _, n1, l1, u1, g1, _⟩ := get_block_facts h1
  obtain ⟨a2, _, _, _, n2, l2, u2, g2, _⟩ := get_block_facts h2
  obtain ⟨a3, _, _, _, n3, l3, u3, g3, _⟩ := get_block_facts h3
  have hR : sync_calls (B0 ++ .printf fmt_newline [] :: (B1 ++ .printf fmt_newline [] ::
      (B2 ++ .printf fmt_newline [] :: (B3 ++ [.printf fmt_newline []])))) = [] := by
    simp [sync_calls_append, sync_calls, a0, a1, a2, a3]
  rw [hT] at hfail ⊢
  have hmem : Event.bst_stat_sync unit (id_list k).bid rc ∈ S := by
    rcases List.mem_append.1 hfail with h | h
    · exact h
    · have := mem_sync_calls h
      rw [hR] at this
      simp at this
  refine ⟨?_, ⟨fun i => match i with | 0 => n0 | 1 => n1 | 2 => n2 | _ => n3, ?_, ?_⟩,
    S, _, rfl, sg, hR⟩
  · rw [sync_calls_append, hR, List.append_nil]
    exact sfail unit k rc hk hrc hmem
  · intro i
    rcases i with _ | _ | _ | _ <;> simp only <;> constructor <;> assumption
  · rw [calls_in_order_four]
    simp [get_calls_append, get_calls, sg, g0, g1, g2, g3]

/-- The two loops of the display operation, on every device: when the read of queue `q` of the
kind of catalog index `k` fails, `q` is one of `0..7`, the read calls for that kind
are exactly those of the queues `0..q` (none for `q+1..7`), exactly `q` value lines
are printed for that kind, and, when `k` is not the last index, the read call that
follows is the one of queue 0 of the kind of index `k+1`. -/
theorem display_stats_read_failure (g : Gateway σ) (unit gport : Int) (options : Nat) (s : σ)
    (val : Val) (k q : Nat) (hk : k < MAX_COUNTERS) (rc : Int) (x : Nat)
    (hrc : rc ≠ OPENNSL_E_NONE)
    (hfail : Event.bst_stat_get unit gport q (id_list k).bid options rc x ∈
      (display_stats g unit gport options s val).2.2) :
    q ≤ 7 ∧
    (get_calls (display_stats g unit gport options s val).2.2).filter
        (fun p => decide (p.1 = (id_list k).bid)) =
      (List.range (q + 1)).map (fun c => ((id_list k).bid, c)) ∧
    value_lines (id_list k).name (display_stats g unit gport options s val).2.2 = q ∧
    (k + 1 < MAX_COUNTERS → ∃ pre post,
      get_calls (display_stats g unit gport options s val).2.2 =
        pre ++ ((id_list k).bid, q) :: ((id_list (k + 1)).bid, 0) :: post) := by
  obtain ⟨S, B0, B1, B2, B3, hT, hS, h0, h1, h2, h3⟩ :=
    display_stats_blocks g unit gport options s val
  obtain ⟨sg, _, sv, _, _⟩ := sync_block_facts hS
  obtain ⟨_, _, v0, _, n0, l0, u0, g0, f0⟩ := get_block_facts h0
  obtain ⟨_, _, v1, _, n1, l1, u1, g1, f1⟩ := get_block_facts h1
  obtain ⟨_, _, v2, _, n2, l2, u2, g2, f2⟩ := get_block_facts h2
  obtain ⟨_, _, v3, _, n3, l3, u3, g3, f3⟩ := get_block_facts h3
  have hG : get_calls (display_stats g unit gport options s val).2.2 =
      (List.range n0).map (fun c => ((id_list 0).bid, c)) ++
      ((List.range n1).map (fun c => ((id_list 1).bid, c)) ++
      ((List.range n2).map (fun c => ((id_list 2).bid, c)) ++
      (List.range n3).map (fun c => ((id_list 3).bid, c)))) := by
    rw [hT]
    simp [get_calls_append, get_calls, sg, g0, g1, g2, g3]
  have hV : ∀ name, value_lines name (display_stats g unit gport options s val).2.2 =
      value_lines name B0 + value_lines name B1 + value_lines name B2 +
        value_lines name B3 := by
    intro name
    rw [hT]
    simp [value_lines_append, value_lines, sv, Nat.add_assoc]
  have hi0 : (0 : Nat) < MAX_COUNTERS := by decide
  have hi1 : (1 : Nat) < MAX_COUNTERS := by decide
  have hi2 : (2 : Nat) < MAX_COUNTERS := by decide
  have hi3 : (3 : Nat) < MAX_COUNTERS := by decide
  have hF : ∀ i n, i < MAX_COUNTERS →
      ((List.range n).map (fun c => ((id_list i).bid, c))).filter
          (fun p => decide (p.1 = (id_list k).bid)) =
        if i = k then (List.range n).map (fun c => ((id_list i).bid, c)) else [] :=
    fun i n hi => filter_kind i k n hi hk
  have hkind : ∀ (i n : Nat) (B : List Event), i < MAX_COUNTERS →
      get_calls B = (List.range n).map (fun c => ((id_list i).bid, c)) →
      Event.bst_stat_get unit gport q (id_list k).bid options rc x ∈ B → k = i := by
    intro i n B hi hB hm
    have := mem_get_calls hm
    rw [hB] at this
    simp only [List.mem_map, Prod.mk.injEq] at this
    obtain ⟨c, _, hb, _⟩ := this
    exact bid_injective hk hi hb.symm
  have hname : ∀ i j : Nat, i < MAX_COUNTERS → j < MAX_COUNTERS → i ≠ j →
      (id_list i).name ≠ (id_list j).name :=
    fun i j hi hj hne e => hne (name_injective hi hj e)
  rw [hT] at hfail
  simp only [List.mem_append, List.mem_cons, List.mem_singleton, List.not_mem_nil,
    or_false] at hfail
  have hno : Event.bst_stat_get unit gport q (id_list k).bid options rc x ≠
      Event.printf fmt_newline [] := by simp
  have hnoS : Event.bst_stat_get unit gport q (id_list k).bid options rc x ∉ S := by
    intro hm
    have := mem_get_calls hm
    rw [sg] at this
    simp at this
  rcases hfail with hm | hm | hm | hm | hm | hm | hm | hm | hm
  · exact absurd hm hnoS
  · have hk0 := hkind 0 n0 B0 hi0 g0 hm
    subst hk0
    obtain ⟨e1, e2⟩ := f0 _ _ _ _ _ _ _ hrc hm
    obtain ⟨tl, htl⟩ := map_range_head (fun c => ((id_list 1).bid, c)) l1
    subst e1
    refine ⟨by omega, ?_, ?_, ?_⟩
    · rw [hG]
      simp only [List.filter_append, hF 0 _ hi0, hF 1 _ hi1, hF 2 _ hi2, hF 3 _ hi3]
      simp
    · rw [hV, e2, v1 _ (hname 0 1 hi0 hi1 (by decide)), v2 _ (hname 0 2 hi0 hi2 (by decide)),
        v3 _ (hname 0 3 hi0 hi3 (by decide))]
      simp
    · intro _
      refine ⟨(List.range q).map (fun c => ((id_list 0).bid, c)),
        tl ++ ((List.range n2).map (fun c => ((id_list 2).bid, c)) ++
          (List.range n3).map (fun c => ((id_list 3).bid, c))), ?_⟩
      rw [hG, htl, List.range_succ]
      simp
  · exact absurd hm hno
  · have hk0 := hkind 1 n1 B1 hi1 g1 hm
    subst hk0
    obtain ⟨e1, e2⟩ := f1 _ _ _ _ _ _ _ hrc hm
    obtain ⟨tl, htl⟩ := map_range_head (fun c => ((id_list 2).bid, c)) l2
    subst e1
    refine ⟨by omega, ?_, ?_, ?_⟩
    · rw [hG]
      simp only [List.filter_append, hF 0 _ hi0, hF 1 _ hi1, hF 2 _ hi2, hF 3 _ hi3]
      simp
    · rw [hV, e2, v0 _ (hname 1 0 hi1 hi0 (by decide)), v2 _ (hname 1 2 hi1 hi2 (by decide)),
        v3 _ (hname 1 3 hi1 hi3 (by decide))]
      simp
    · intro _
      refine ⟨(List.range n0).map (fun c => ((id_list 0).bid, c)) ++
          (List.range q).map (fun c => ((id_list 1).bid, c)),
        tl ++ (List.range n3).map (fun c => ((id_list 3).bid, c)), ?_⟩
      rw [hG, htl, List.range_succ]
      simp
  · exact absurd hm hno
  · have hk0 := hkind 2 n2 B2 hi2 g2 hm
    subst hk0
    obtain ⟨e1, e2⟩ := f2 _ _ _ _ _ _ _ hrc hm
    obtain ⟨tl, htl⟩ := map_range_head (fun c => ((id_list 3).bid, c)) l3
    subst e1
    refine ⟨by omega, ?_, ?_, ?_⟩
    · rw [hG]
      simp only [List.filter_append, hF 0 _ hi0, hF 1 _ hi1, hF 2 _ hi2, hF 3 _ hi3]
      simp
    · rw [hV, e2, v0 _ (hname 2 0 hi2 hi0 (by decide)), v1 _ (hname 2 1 hi2 hi1 (by decide)),
        v3 _ (hname 2 3 hi2 hi3 (by decide))]
      simp
    · intro _
      refine ⟨(List.range n0).map (fun c => ((id_list 0).bid, c)) ++
          ((List.range n1).map (fun c => ((id_list 1).bid, c)) ++
          (List.range q).map (fun c => ((id_list 2).bid, c))), tl, ?_⟩
      rw [hG, htl, List.range_succ]
      simp
  · exact absurd hm hno
  · have hk0 := hkind 3 n3 B3 hi3 g3 hm
    subst hk0
    obtain ⟨e1, e2⟩ := f3 _ _ _ _ _ _ _ hrc hm
    subst e1
    refine ⟨by omega, ?_, ?_, ?_⟩
    · rw [hG]
      simp only [List.filter_append, hF 0 _ hi0, hF 1 _ hi1, hF 2 _ hi2, hF 3 _ hi3]
      simp
    · rw [hV, e2, v0 _ (hname 3 0 hi3 hi0 (by decide)), v1 _ (hname 3 1 hi3 hi1 (by decide)),
        v2 _ (hname 3 2 hi3 hi2 (by decide))]
      simp
    · intro h
      exact absurd h (by decide)
  · exact absurd hm hno

theorem format_value_line (name : String) (q v : Nat) :
    format fmt_bst_counter.data [.str name, .int (q : Int), .u64 v] = value_line name q v := by
  simp [fmt_bst_counter, format, value_line]
  rfl

theorem console_get_ok_events (unit gport : Int) (options index : Nat) (v : Nat → Nat) :
    ∀ l : List Nat, console (get_ok_events unit gport options index v l) =
      l.flatMap (fun c => value_line (id_list index).name c (v c)) := by
  intro l
  induction l with
  | nil => rfl
  | cons c more ih =>
    simp only [get_ok_events, console, ih, format_value_line, List.flatMap_cons]

theorem range_eight : List.range 8 = [0, 1, 2, 3, 4, 5, 6, 7] := by decide

theorem console_newline : console [.printf "\n" []] = ['\n'] := by decide

theorem console_display_ok_trace (unit gport : Int) (options : Nat) (v : Nat → Nat → Nat) :
    console (display_ok_trace unit gport options v) = display_ok_console v := by
  have hs : console (sync_ok_events unit [0, 1, 2, 3]) = [] :=
    (sync_ok_events_obs unit _).2.2.2.2.1
  have h0 : (id_list 0).name = "opennslBstStatIdUcast" := rfl
  have h1 : (id_list 1).name = "opennslBstStatIdMcast" := rfl
  have h2 : (id_list 2).name = "opennslBstStatIdPriGroupShared" := rfl
  have h3 : (id_list 3).name = "opennslBstStatIdPriGroupHeadroom" := rfl
  simp only [display_ok_trace, console_append, hs, console_get_ok_events, console_newline,
    display_ok_console, kind_block, List.flatMap_cons, List.flatMap_nil, List.append_nil,
    List.nil_append, List.append_assoc, h0, h1, h2, h3]

/-- C3: in the display operation, when no call fails, the trace is exactly: the four
synchronisations in catalog order, then, kind after kind in catalog order, the eight
reads of the queues 0..7, each followed by the value line that carries the value just
read, and a `printf("\n")` after each kind; the console output is the 32 lines
`BST Counter: <kind-name> for COS queue: <q> is : <value>` in that order, with a
blank line after each block of 8. -/
theorem display_all_success (g : Gateway σ) (unit gport : Int) (options : Nat) (s : σ)
    (val : Val)
    (hall : ∀ e ∈ (display_stats g unit gport options s val).2.2, e.failed = false) :
    ∃ v : Nat → Nat → Nat,
      (display_stats g unit gport options s val).2.2 =
        display_ok_trace unit gport options v ∧
      console (display_stats g unit gport options s val).2.2 = display_ok_console v := by
  obtain ⟨S, B0, B1, B2, B3, hT, hS, h0, h1, h2, h3⟩ :=
    display_stats_blocks g unit gport options s val
  rw [hT] at hall
  have hsub : ∀ B : List Event, (∀ e ∈ B, e ∈ S ++ (B0 ++ .printf fmt_newline [] ::
      (B1 ++ .printf fmt_newline [] :: (B2 ++ .printf fmt_newline [] ::
        (B3 ++ [.printf fmt_newline []]))))) → ∀ e ∈ B, e.failed = false :=
    fun B hB e he => hall e (hB e he)
  have eS := (sync_block_facts hS).2.2.2.1 (hsub S (fun e he => by simp [he]))
  obtain ⟨v0, e0⟩ := (get_block_facts h0).2.2.2.1 (hsub B0 (fun e he => by simp [he]))
  obtain ⟨v1, e1⟩ := (get_block_facts h1).2.2.2.1 (hsub B1 (fun e he => by simp [he]))
  obtain ⟨v2, e2⟩ := (get_block_facts h2).2.2.2.1 (hsub B2 (fun e he => by simp [he]))
  obtain ⟨v3, e3⟩ := (get_block_facts h3).2.2.2.1 (hsub B3 (fun e he => by simp [he]))
  have hE : (display_stats g unit gport options s val).2.2 =
      display_ok_trace unit gport options
        (fun i => match i with | 0 => v0 | 1 => v1 | 2 => v2 | _ => v3) := by
    rw [hT, eS, e0, e1, e2, e3, range_counters, range_eight]
    simp [display_ok_trace, fmt_newline]
  refine ⟨_, hE, ?_⟩
  rw [hE, console_display_ok_trace]

end Display

/-! ## The clear operation -/

section Clear

variable {σ : Type}

/-- The loops of the clear operation, on every device: no synchronisation call and no read
call is made; the clear calls are, kind after kind in catalog order, the queues from
0 upwards of each of the 4 kinds (`n i` queues for the kind of index `i`, at least
queue 0); when the clear of queue `q` of the kind of index `k` fails, that kind stops
there (`n k = q + 1`: no clear for `q+1..7`) and the next kind starts at queue 0;
a kind none of whose clears fails has all 8 queues cleared. -/
theorem clear_stats_clear_calls (g : Gateway σ) (unit gport port : Int) (s : σ) :
    sync_calls (clear_stats g unit gport port s).2 = [] ∧
    get_calls (clear_stats g unit gport port s).2 = [] ∧
    ∃ n : Nat → Nat, (∀ i, 1 ≤ n i ∧ n i ≤ 8) ∧
      clear_calls (clear_stats g unit gport port s).2 = calls_in_order n ∧
      (∀ k q rc, k < MAX_COUNTERS → rc ≠ OPENNSL_E_NONE →
        Event.bst_stat_clear unit gport q (id_list k).bid rc ∈
          (clear_stats g unit gport port s).2 → n k = q + 1) ∧
      (∀ k, k < MAX_COUNTERS →
        (∀ q rc, Event.bst_stat_clear unit gport q (id_list k).bid rc ∈
          (clear_stats g unit gport port s).2 → rc = OPENNSL_E_NONE) → n k = 8) := by
  obtain ⟨B0, B1, B2, B3, hT, h0, h1, h2, h3⟩ := clear_stats_blocks g unit gport port s
  obtain ⟨a0, b0, n0, l0, u0, c0, f0, k0⟩ := clear_block_facts h0
  obtain ⟨a1, b1, n1, l1, u1, c1, f1, k1⟩ := clear_block_facts h1
  obtain ⟨a2, b2, n2, l2, u2, c2, f2, k2⟩ := clear_block_facts h2
  obtain ⟨a3, b3, n3, l3, u3, c3, f3, k3⟩ := clear_block_facts h3
  have hi0 : (0 : Nat) < MAX_COUNTERS := by decide
  have hi1 : (1 : Nat) < MAX_COUNTERS := by decide
  have hi2 : (2 : Nat) < MAX_COUNTERS := by decide
  have hi3 : (3 : Nat) < MAX_COUNTERS := by decide
  have hkind : ∀ (k q : Nat) (rc : Int) (i n : Nat) (B : List Event), k < MAX_COUNTERS →
      i < MAX_COUNTERS →
      clear_calls B = (List.range n).map (fun c => ((id_list i).bid, c)) →
      Event.bst_stat_clear unit gport q (id_list k).bid rc ∈ B → k = i := by
    intro k q rc i n B hk hi hB hm
    have := mem_clear_calls hm
    rw [hB] at this
    simp only [List.mem_map, Prod.mk.injEq] at this
    obtain ⟨c, _, hb, _⟩ := this
    exact bid_injective hk hi hb.symm
  have hmem : ∀ (k q : Nat) (rc : Int), k < MAX_COUNTERS →
      Event.bst_stat_clear unit gport q (id_list k).bid rc ∈
        (clear_stats g unit gport port s).2 →
      (k = 0 ∧ Event.bst_stat_clear unit gport q (id_list 0).bid rc ∈ B0) ∨
      (k = 1 ∧ Event.bst_stat_clear unit gport q (id_list 1).bid rc ∈ B1) ∨
      (k = 2 ∧ Event.bst_stat_clear unit gport q (id_list 2).bid rc ∈ B2) ∨
      (k = 3 ∧ Event.bst_stat_clear unit gport q (id_list 3).bid rc ∈ B3) := by
    intro k q rc hk hm
    rw [hT] at hm
    simp only [List.mem_append, List.mem_cons, List.mem_singleton, List.not_mem_nil,
      or_false] at hm
    have hno : ∀ f a, Event.bst_stat_clear unit gport q (id_list k).bid rc ≠
        Event.printf f a := by simp
    rcases hm with (hm | hm | hm | hm | hm | hm | hm | hm) | hm
    · have e := hkind k q rc 0 n0 B0 hk hi0 c0 hm
      subst e
      exact Or.inl ⟨rfl, hm⟩
    · exact absurd hm (hno _ _)
    · have e := hkind k q rc 1 n1 B1 hk hi1 c1 hm
      subst e
      exact Or.inr (Or.inl ⟨rfl, hm⟩)
    · exact absurd hm (hno _ _)
    · have e := hkind k q rc 2 n2 B2 hk hi2 c2 hm
      subst e
      exact Or.inr (Or.inr (Or.inl ⟨rfl, hm⟩))
    · exact absurd hm (hno _ _)
    · have e := hkind k q rc 3 n3 B3 hk hi3 c3 hm
      subst e
      exact Or.inr (Or.inr (Or.inr ⟨rfl, hm⟩))
    · exact absurd hm (hno _ _)
    · exact absurd hm (hno _ _)
  have hsubset : ∀ e, (e ∈ B0 ∨ e ∈ B1 ∨ e ∈ B2 ∨ e ∈ B3) →
      e ∈ (clear_stats g unit gport port s).2 := by
    intro e he
    rw [hT]
    rcases he with h | h | h | h <;> simp [h]
  refine ⟨?_, ?_, fun i => match i with | 0 => n0 | 1 => n1 | 2 => n2 | _ => n3, ?_, ?_,
    ?_, ?_⟩
  · rw [hT]
    simp [sync_calls_append, sync_calls, a0, a1, a2, a3]
  · rw [hT]
    simp [get_calls_append, get_calls, b0, b1, b2, b3]
  · intro i
    rcases i with _ | _ | _ | _ <;> simp only <;> constructor <;> assumption
  · rw [calls_in_order_four, hT]
    simp [clear_calls_append, clear_calls, c0, c1, c2, c3]
  · intro k q rc hk hrc hm
    rcases hmem k q rc hk hm with ⟨e, h⟩ | ⟨e, h⟩ | ⟨e, h⟩ | ⟨e, h⟩ <;> subst e
    · exact f0 _ _ _ _ _ hrc h
    · exact f1 _ _ _ _ _ hrc h
    · exact f2 _ _ _ _ _ hrc h
    · exact f3 _ _ _ _ _ hrc h
  · intro k hk hall
    simp only [MAX_COUNTERS] at hk
    interval_cases k
    · exact k0 (fun q rc h => hall q rc (hsubset _ (Or.inl h)))
    · exact k1 (fun q rc h => hall q rc (hsubset _ (Or.inr (Or.inl h))))
    · exact k2 (fun q rc h => hall q rc (hsubset _ (Or.inr (Or.inr (Or.inl h)))))
    · exact k3 (fun q rc h => hall q rc (hsubset _ (Or.inr (Or.inr (Or.inr h)))))

end Clear

section Runs

/-- C3 on the scenario of the specification (port 3, unicast `[1,2,0,0,0,0,0,0]`,
multicast all 0, shared all 5, headroom all 0): no call fails, and the trace and the
console output are the ones of the scenario's values. -/
theorem display_all_success_witness :
    (∀ e ∈ (display_stats (table_device healthy) 0 3 0 0 val_zero).2.2, e.failed = false) ∧
    (∃ v : Nat → Nat → Nat,
      (display_stats (table_device healthy) 0 3 0 0 val_zero).2.2 =
        display_ok_trace 0 3 0 v ∧
      console (display_stats (table_device healthy) 0 3 0 0 val_zero).2.2 =
        display_ok_console v) ∧
    (display_stats (table_device healthy) 0 3 0 0 val_zero).2.2 =
      display_ok_trace 0 3 0 (fun i c => scenario_value (id_list i).bid c) ∧
    (menu_pass (table_device healthy) 0 0 ⟨0, "1\n3\n".data, val_zero⟩).trace =
      menu_prompt ++ .printf fmt_enter_port [] :: .port_gport_get 0 3 0 3 ::
        display_ok_trace 0 3 0 (fun i c => scenario_value (id_list i).bid c) ∧
    (menu_pass (table_device healthy) 0 0 ⟨0, "1\n3\n".data, val_zero⟩).ctl = .next :=
  ⟨by decide,
    display_all_success (table_device healthy) 0 3 0 0 val_zero (by decide),
    by rfl, by rfl, by rfl⟩

set_option maxRecDepth 4000 in
/-- The console output of the scenario, as text. -/
theorem scenario_console :
    String.mk (display_ok_console (fun i c => scenario_value (id_list i).bid c)) =
      "BST Counter: opennslBstStatIdUcast for COS queue: 0 is : 1\n" ++
      "BST Counter: opennslBstStatIdUcast for COS queue: 1 is : 2\n" ++
      "BST Counter: opennslBstStatIdUcast for COS queue: 2 is : 0\n" ++
      "BST Counter: opennslBstStatIdUcast for COS queue: 3 is : 0\n" ++
      "BST Counter: opennslBstStatIdUcast for COS queue: 4 is : 0\n" ++
      "BST Counter: opennslBstStatIdUcast for COS queue: 5 is : 0\n" ++
      "BST Counter: opennslBstStatIdUcast for COS queue: 6 is : 0\n" ++
      "BST Counter: opennslBstStatIdUcast for COS queue: 7 is : 0\n" ++
      "\n" ++
      "BST Counter: opennslBstStatIdMcast for COS queue: 0 is : 0\n" ++
      "BST Counter: opennslBstStatIdMcast for COS queue: 1 is : 0\n" ++
      "BST Counter: opennslBstStatIdMcast for COS queue: 2 is : 0\n" ++
      "BST Counter: opennslBstStatIdMcast for COS queue: 3 is : 0\n" ++
      "BST Counter: opennslBstStatIdMcast for COS queue: 4 is : 0\n" ++
      "BST Counter: opennslBstStatIdMcast for COS queue: 5 is : 0\n" ++
      "BST Counter: opennslBstStatIdMcast for COS queue: 6 is : 0\n" ++
      "BST Counter: opennslBstStatIdMcast for COS queue: 7 is : 0\n" ++
      "\n" ++
      "BST Counter: opennslBstStatIdPriGroupShared for COS queue: 0 is : 5\n" ++
      "BST Counter: opennslBstStatIdPriGroupShared for COS queue: 1 is : 5\n" ++
      "BST Counter: opennslBstStatIdPriGroupShared for COS queue: 2 is : 5\n" ++
      "BST Counter: opennslBstStatIdPriGroupShared for COS queue: 3 is : 5\n" ++
      "BST Counter: opennslBstStatIdPriGroupShared for COS queue: 4 is : 5\n" ++
      "BST Counter: opennslBstStatIdPriGroupShared for COS queue: 5 is : 5\n" ++
      "BST Counter: opennslBstStatIdPriGroupShared for COS queue: 6 is : 5\n" ++
      "BST Counter: opennslBstStatIdPriGroupShared for COS queue: 7 is : 5\n" ++
      "\n" ++
      "BST Counter: opennslBstStatIdPriGroupHeadroom for COS queue: 0 is : 0\n" ++
      "BST Counter: opennslBstStatIdPriGroupHeadroom for COS queue: 1 is : 0\n" ++
      "BST Counter: opennslBstStatIdPriGroupHeadroom for COS queue: 2 is : 0\n" ++
      "BST Counter: opennslBstStatIdPriGroupHeadroom for COS queue: 3 is : 0\n" ++
      "BST Counter: opennslBstStatIdPriGroupHeadroom for COS queue: 4 is : 0\n" ++
      "BST Counter: opennslBstStatIdPriGroupHeadroom for COS queue: 5 is : 0\n" ++
      "BST Counter: opennslBstStatIdPriGroupHeadroom for COS queue: 6 is : 0\n" ++
      "BST Counter: opennslBstStatIdPriGroupHeadroom for COS queue: 7 is : 0\n" ++
      "\n" := by
  rfl

end Runs

/-! ## The menu loop -/

section Session

variable {σ : Type}

theorem read_user_choice_wf (line rest : List Char) (h : well_formed line) :
    '\n' ∉ line ∧
    example_read_user_choice (line ++ '\n' :: rest)
      = some ⟨OPENNSL_E_NONE, (decimal_value line : Int), rest⟩ := by
  obtain ⟨hne, hdigits, h5⟩ := h
  have hd : ∀ c ∈ line, is_digit c = true := fun c hc => (is_digit_iff c).2 (hdigits c hc)
  have hnl : '\n' ∉ line := by
    intro hmem
    exact absurd (hd _ hmem) (by decide)
  obtain ⟨r, e1, e2, _, e4, e5⟩ := read_user_choice_line line rest hnl
  have hrc : r.rc = OPENNSL_E_NONE := e4.2 ⟨hne, hd, h5⟩
  have hch : r.choice = (decimal_value line : Int) := by
    rw [e5 hrc, atoi_of_digits line hne hd]
  refine ⟨hnl, ?_⟩
  rw [e1]
  cases r with
  | mk rc choice rs =>
    simp only at hrc hch e2
    rw [hrc, hch, e2]

theorem read_user_choice_bad (line rest : List Char) (hnl : '\n' ∉ line)
    (h : ¬ well_formed line) :
    example_read_user_choice (line ++ '\n' :: rest) = some ⟨OPENNSL_E_FAIL, -1, rest⟩ := by
  obtain ⟨r, e1, e2, e3, e4, _⟩ := read_user_choice_line line rest hnl
  have hrc : r.rc ≠ OPENNSL_E_NONE := by
    intro e
    apply h
    obtain ⟨a, b, c⟩ := e4.1 e
    exact ⟨a, fun x hx => (is_digit_iff x).1 (b x hx), c⟩
  rcases e3 with e | ⟨e, e'⟩
  · exact absurd e hrc
  · rw [e1]
    cases r with
    | mk rc choice rs =>
      simp only at e e' e2
      rw [e, e', e2]

theorem menu_loop_next (g : Gateway σ) (unit : Int) (options passes : Nat) (st : State σ)
    (h : (menu_pass g unit options st).ctl = .next) :
    menu_loop g unit options (passes + 1) st =
      ((menu_loop g unit options passes (menu_pass g unit options st).st).1,
        (menu_pass g unit options st).trace ++
          (menu_loop g unit options passes (menu_pass g unit options st).st).2.1,
        (menu_loop g unit options passes (menu_pass g unit options st).st).2.2) := by
  simp only [menu_loop, h]

theorem menu_loop_returned (g : Gateway σ) (unit : Int) (options passes : Nat)
    (st : State σ) (status : Int)
    (h : (menu_pass g unit options st).ctl = .returned status) :
    menu_loop g unit options (passes + 1) st =
      ((menu_pass g unit options st).st, (menu_pass g unit options st).trace,
        .exited status) := by
  simp only [menu_loop, h]

theorem menu_pass_prompt (g : Gateway σ) (unit : Int) (options : Nat) (st : State σ) :
    ∃ t, (menu_pass g unit options st).trace = menu_prompt ++ t := by
  unfold menu_pass
  split
  · exact ⟨[], by simp⟩
  · split_ifs <;> exact ⟨_, rfl⟩

theorem menu_loop_prompt (g : Gateway σ) (unit : Int) (options passes : Nat)
    (st : State σ) :
    ∃ t, (menu_loop g unit options (passes + 1) st).2.1 = menu_prompt ++ t := by
  obtain ⟨t, ht⟩ := menu_pass_prompt g unit options st
  cases hc : (menu_pass g unit options st).ctl with
  | next =>
    rw [menu_loop_next g unit options passes st hc]
    exact ⟨t ++ (menu_loop g unit options passes (menu_pass g unit options st).st).2.1, by
      simp [ht]⟩
  | returned status =>
    rw [menu_loop_returned g unit options passes st status hc]
    exact ⟨t, ht⟩
  | blocked =>
    refine ⟨t, ?_⟩
    simp only [menu_loop, hc]
    exact ht

theorem menu_pass_bad_choice (g : Gateway σ) (unit : Int) (options : Nat) (st : State σ)
    (line rest : List Char) (hst : st.stdin = line ++ '\n' :: rest) (hnl : '\n' ∉ line)
    (h : ¬ well_formed line) :
    menu_pass g unit options st =
      ⟨⟨st.dev, rest, st.val⟩, menu_prompt ++ [.printf fmt_invalid_option []], .next⟩ := by
  have hne : OPENNSL_E_FAIL ≠ OPENNSL_E_NONE := by decide
  simp only [menu_pass, hst, read_user_choice_bad line rest hnl h, if_pos hne]

theorem menu_pass_other_choice (g : Gateway σ) (unit : Int) (options : Nat) (st : State σ)
    (line rest : List Char) (hst : st.stdin = line ++ '\n' :: rest) (h : well_formed line)
    (h0 : decimal_value line ≠ 0) (h1 : decimal_value line ≠ 1)
    (h2 : decimal_value line ≠ 2) (h9 : decimal_value line ≠ 9) :
    menu_pass g unit options st = ⟨⟨st.dev, rest, st.val⟩, menu_prompt, .next⟩ := by
  have e0 : ¬ ((decimal_value line : Int) = 0) := by exact_mod_cast h0
  have e1 : ¬ ((decimal_value line : Int) = 1) := by exact_mod_cast h1
  have e2 : ¬ ((decimal_value line : Int) = 2) := by exact_mod_cast h2
  have e9 : ¬ ((decimal_value line : Int) = 9) := by exact_mod_cast h9
  simp only [menu_pass, hst, (read_user_choice_wf line rest h).2, ne_eq, not_true_eq_false,
    if_false, e0, e1, e2, e9]

theorem menu_pass_bad_port (g : Gateway σ) (unit : Int) (options : Nat) (st : State σ)
    (line rest line2 rest2 : List Char) (hst : st.stdin = line ++ '\n' :: rest)
    (h : well_formed line) (h12 : decimal_value line = 1 ∨ decimal_value line = 2)
    (hrest : rest = line2 ++ '\n' :: rest2) (hnl2 : '\n' ∉ line2) (hbad : ¬ well_formed line2) :
    menu_pass g unit options st =
      ⟨⟨st.dev, rest2, st.val⟩,
        menu_prompt ++ [.printf fmt_enter_port [], .printf fmt_invalid_option []], .next⟩ := by
  have hne : OPENNSL_E_FAIL ≠ OPENNSL_E_NONE := by decide
  have hr2 := read_user_choice_bad line2 rest2 hnl2 hbad
  rw [← hrest] at hr2
  rcases h12 with e | e
  · have e1 : (decimal_value line : Int) = 1 := by exact_mod_cast e
    simp only [menu_pass, hst, (read_user_choice_wf line rest h).2, ne_eq, not_true_eq_false,
      if_false, e1, if_true, case_1, hr2, hne, not_false_eq_true]
  · have e1 : ¬ ((2 : Int) = 1) := by decide
    have e2 : (decimal_value line : Int) = 2 := by exact_mod_cast e
    simp only [menu_pass, hst, (read_user_choice_wf line rest h).2, ne_eq, not_true_eq_false,
      if_false, e1, e2, if_true, case_2, hr2, hne, not_false_eq_true]

theorem menu_pass_port_failure (g : Gateway σ) (unit : Int) (options : Nat) (st : State σ)
    (line rest line2 rest2 : List Char) (hst : st.stdin = line ++ '\n' :: rest)
    (h : well_formed line) (h12 : decimal_value line = 1 ∨ decimal_value line = 2)
    (hrest : rest = line2 ++ '\n' :: rest2) (h2 : well_formed line2)
    (hfail : (g.opennsl_port_gport_get st.dev unit (decimal_value line2 : Int)).2.1 ≠
      OPENNSL_E_NONE) :
    menu_pass g unit options st =
      ⟨⟨(g.opennsl_port_gport_get st.dev unit (decimal_value line2 : Int)).1, rest2, st.val⟩,
        menu_prompt ++ [.printf fmt_enter_port [],
          .port_gport_get unit (decimal_value line2 : Int)
            (g.opennsl_port_gport_get st.dev unit (decimal_value line2 : Int)).2.1
            (g.opennsl_port_gport_get st.dev unit (decimal_value line2 : Int)).2.2],
        .returned OPENNSL_E_FAIL⟩ := by
  have hr2 := (read_user_choice_wf line2 rest2 h2).2
  rw [← hrest] at hr2
  rcases h12 with e | e
  · have e1 : (decimal_value line : Int) = 1 := by exact_mod_cast e
    simp only [menu_pass, hst, (read_user_choice_wf line rest h).2, ne_eq, not_true_eq_false,
      if_false, e1, if_true, case_1, hr2]
    rw [if_pos hfail]
  · have e1 : ¬ ((2 : Int) = 1) := by decide
    have e2 : (decimal_value line : Int) = 2 := by exact_mod_cast e
    simp only [menu_pass, hst, (read_user_choice_wf line rest h).2, ne_eq, not_true_eq_false,
      if_false, e1, e2, if_true, case_2, hr2]
    rw [if_pos hfail]

/-- C5, as the code behaves: for the display and for the clear operation, on every
device, when the choice line is `1` or `2`, the port line is a valid number and the
port resolution fails, no synchronisation, read or clear call is made, and `main`
returns `OPENNSL_E_FAIL`: the loop ends there, whatever number of passes it is
followed for, and nothing more is read from standard input. -/
theorem port_resolution_failure (g : Gateway σ) (unit : Int) (options : Nat) (st : State σ)
    (line rest line2 rest2 : List Char) (hst : st.stdin = line ++ '\n' :: rest)
    (h : well_formed line) (h12 : decimal_value line = 1 ∨ decimal_value line = 2)
    (hrest : rest = line2 ++ '\n' :: rest2) (h2 : well_formed line2)
    (hfail : (g.opennsl_port_gport_get st.dev unit (decimal_value line2 : Int)).2.1 ≠
      OPENNSL_E_NONE) :
    (menu_pass g unit options st).ctl = .returned OPENNSL_E_FAIL ∧
    sync_calls (menu_pass g unit options st).trace = [] ∧
    get_calls (menu_pass g unit options st).trace = [] ∧
    clear_calls (menu_pass g unit options st).trace = [] ∧
    ∀ passes, (menu_loop g unit options (passes + 1) st).2.2 = .exited OPENNSL_E_FAIL ∧
      (menu_loop g unit options (passes + 1) st).2.1 = (menu_pass g unit options st).trace ∧
      (menu_loop g unit options (passes + 1) st).1.stdin = rest2 := by
  have hp := menu_pass_port_failure g unit options st line rest line2 rest2 hst h h12 hrest h2
    hfail
  have hc : (menu_pass g unit options st).ctl = .returned OPENNSL_E_FAIL := by rw [hp]
  refine ⟨hc, ?_, ?_, ?_, ?_⟩
  · rw [hp]
    simp [menu_prompt, sync_calls]
  · rw [hp]
    simp [menu_prompt, get_calls]
  · rw [hp]
    simp [menu_prompt, clear_calls]
  · intro passes
    rw [menu_loop_returned g unit options passes st _ hc]
    refine ⟨rfl, rfl, ?_⟩
    rw [hp]

/-- C5 as the code behaves, on the device on which no port resolves, with the input
`1`, `3`, `0`. -/
theorem port_resolution_failure_witness :
    (well_formed "1".data ∧ (decimal_value "1".data = 1 ∨ decimal_value "1".data = 2) ∧
      well_formed "3".data ∧
      ((table_device no_port).opennsl_port_gport_get 0 0 (decimal_value "3".data : Int)).2.1 ≠
        OPENNSL_E_NONE) ∧
    (menu_pass (table_device no_port) 0 0 ⟨0, "1\n3\n0\n".data, val_zero⟩).ctl =
      .returned OPENNSL_E_FAIL :=
  ⟨⟨by decide, by decide, by decide, by decide⟩,
    (port_resolution_failure (table_device no_port) 0 0 ⟨0, "1\n3\n0\n".data, val_zero⟩
      "1".data "3\n0\n".data "3".data "0\n".data rfl (by decide) (by decide) rfl (by decide)
      (by decide)).1⟩

/-- C5 as stated fails: on the device on which no port resolves, with the input `1`,
`3`, `0` (and likewise `2`, `3`, `0`), the pass does not go back to the menu: `main`
returns `OPENNSL_E_FAIL`, the menu is printed once, and the line `0` is never read. -/
theorem port_failure_ends_session :
    (menu_pass (table_device no_port) 0 0 ⟨0, "1\n3\n0\n".data, val_zero⟩).ctl ≠ .next ∧
    (menu_loop (table_device no_port) 0 0 3 ⟨0, "1\n3\n0\n".data, val_zero⟩).2.2 =
      .exited OPENNSL_E_FAIL ∧
    (menu_loop (table_device no_port) 0 0 3 ⟨0, "1\n3\n0\n".data, val_zero⟩).2.1 =
      menu_prompt ++ [.printf fmt_enter_port [], .port_gport_get 0 3 (-7) 3] ∧
    (menu_loop (table_device no_port) 0 0 3 ⟨0, "1\n3\n0\n".data, val_zero⟩).1.stdin =
      "0\n".data ∧
    (menu_pass (table_device no_port) 0 0 ⟨0, "2\n3\n0\n".data, val_zero⟩).ctl ≠ .next ∧
    (menu_loop (table_device no_port) 0 0 3 ⟨0, "2\n3\n0\n".data, val_zero⟩).2.2 =
      .exited OPENNSL_E_FAIL ∧
    (menu_loop (table_device no_port) 0 0 3 ⟨0, "2\n3\n0\n".data, val_zero⟩).1.stdin =
      "0\n".data := by
  refine ⟨by decide, by decide, by decide, by decide, by decide, by decide, by decide⟩

/-- C8: on every device, a pass of the menu loop goes back to the menu without any
library call (no port resolution, synchronisation, read, clear or shell call) and
leaves the device as it was, when the choice line is not a valid number, when it is a
valid number other than 0, 1, 2 and 9, and when it is 1 or 2 and the port line is not
a valid number. -/
theorem invalid_input_no_gateway_call (g : Gateway σ) (unit : Int) (options : Nat)
    (st : State σ) (line rest : List Char) (hst : st.stdin = line ++ '\n' :: rest)
    (hnl : '\n' ∉ line)
    (hbad : ¬ well_formed line ∨
      (well_formed line ∧ decimal_value line ≠ 0 ∧ decimal_value line ≠ 1 ∧
        decimal_value line ≠ 2 ∧ decimal_value line ≠ 9) ∨
      (well_formed line ∧ (decimal_value line = 1 ∨ decimal_value line = 2) ∧
        ∃ line2 rest2, rest = line2 ++ '\n' :: rest2 ∧ '\n' ∉ line2 ∧ ¬ well_formed line2)) :
    (menu_pass g unit options st).ctl = .next ∧
    library_calls (menu_pass g unit options st).trace = [] ∧
    (menu_pass g unit options st).st.dev = st.dev := by
  rcases hbad with h | ⟨h, h0, h1, h2, h9⟩ | ⟨h, h12, line2, rest2, hrest, hnl2, hbad2⟩
  · rw [menu_pass_bad_choice g unit options st line rest hst hnl h]
    exact ⟨rfl, by simp [menu_prompt, library_calls], rfl⟩
  · rw [menu_pass_other_choice g unit options st line rest hst h h0 h1 h2 h9]
    exact ⟨rfl, by simp [menu_prompt, library_calls], rfl⟩
  · rw [menu_pass_bad_port g unit options st line rest line2 rest2 hst h h12 hrest hnl2 hbad2]
    exact ⟨rfl, by simp [menu_prompt, library_calls], rfl⟩

/-- C8 on the choice line `7`. -/
theorem invalid_input_no_gateway_call_witness :
    ('\n' ∉ "7".data ∧ well_formed "7".data ∧ decimal_value "7".data ≠ 0 ∧
      decimal_value "7".data ≠ 1 ∧ decimal_value "7".data ≠ 2 ∧
      decimal_value "7".data ≠ 9) ∧
    (menu_pass (table_device healthy) 0 0 ⟨0, "7\n1\n".data, val_zero⟩).ctl = .next ∧
    library_calls (menu_pass (table_device healthy) 0 0 ⟨0, "7\n1\n".data, val_zero⟩).trace
      = [] ∧
    (menu_pass (table_device healthy) 0 0 ⟨0, "7\n1\n".data, val_zero⟩).st.dev = 0 :=
  ⟨⟨by decide, by decide, by decide, by decide, by decide, by decide⟩,
    invalid_input_no_gateway_call (table_device healthy) 0 0 ⟨0, "7\n1\n".data, val_zero⟩
      "7".data "1\n".data rfl (by decide)
      (Or.inr (Or.inl ⟨by decide, by decide, by decide, by decide, by decide⟩))⟩

/-- C9, as the code behaves: on every device, when the choice line is not a valid
number (a character that is not a digit, an empty line, more than 5 digits), the pass
prints the menu and then `Invalid option entered. Please re-enter.`; when it is a
valid number other than 0, 1, 2 and 9, the pass prints the menu and nothing else. In
both cases the loop goes on, and its next pass prints the menu again. -/
theorem menu_invalid_option (g : Gateway σ) (unit : Int) (options : Nat) (st : State σ)
    (line rest : List Char) (hst : st.stdin = line ++ '\n' :: rest) (hnl : '\n' ∉ line) :
    (¬ well_formed line →
      (menu_pass g unit options st).trace =
        menu_prompt ++ [.printf fmt_invalid_option []] ∧
      (menu_pass g unit options st).ctl = .next ∧
      ∀ passes, ∃ t, (menu_loop g unit options (passes + 2) st).2.1 =
        menu_prompt ++ [.printf fmt_invalid_option []] ++ menu_prompt ++ t) ∧
    (well_formed line → decimal_value line ≠ 0 → decimal_value line ≠ 1 →
      decimal_value line ≠ 2 → decimal_value line ≠ 9 →
      (menu_pass g unit options st).trace = menu_prompt ∧
      (menu_pass g unit options st).ctl = .next ∧
      ∀ passes, ∃ t, (menu_loop g unit options (passes + 2) st).2.1 =
        menu_prompt ++ menu_prompt ++ t) := by
  constructor
  · intro h
    have hp := menu_pass_bad_choice g unit options st line rest hst hnl h
    have hc : (menu_pass g unit options st).ctl = .next := by rw [hp]
    refine ⟨by rw [hp], hc, ?_⟩
    intro passes
    obtain ⟨t, ht⟩ := menu_loop_prompt g unit options passes (menu_pass g unit options st).st
    refine ⟨t, ?_⟩
    rw [menu_loop_next g unit options (passes + 1) st hc]
    simp only [ht]
    rw [hp]
    simp
  · intro h h0 h1 h2 h9
    have hp := menu_pass_other_choice g unit options st line rest hst h h0 h1 h2 h9
    have hc : (menu_pass g unit options st).ctl = .next := by rw [hp]
    refine ⟨by rw [hp], hc, ?_⟩
    intro passes
    obtain ⟨t, ht⟩ := menu_loop_prompt g unit options passes (menu_pass g unit options st).st
    refine ⟨t, ?_⟩
    rw [menu_loop_next g unit options (passes + 1) st hc]
    simp only [ht]
    rw [hp]
    simp

/-- C9 as the code behaves, on the choice lines `12a3` and `7`. -/
theorem menu_invalid_option_witness :
    ('\n' ∉ "12a3".data ∧ ¬ well_formed "12a3".data ∧
      (menu_pass (table_device healthy) 0 0 ⟨0, "12a3\n0\n".data, val_zero⟩).trace =
        menu_prompt ++ [.printf fmt_invalid_option []]) ∧
    ('\n' ∉ "7".data ∧ well_formed "7".data ∧ decimal_value "7".data ≠ 0 ∧
      decimal_value "7".data ≠ 1 ∧ decimal_value "7".data ≠ 2 ∧
      decimal_value "7".data ≠ 9 ∧
      (menu_pass (table_device healthy) 0 0 ⟨0, "7\n0\n".data, val_zero⟩).trace =
        menu_prompt) :=
  ⟨⟨by decide, by decide,
      ((menu_invalid_option (table_device healthy) 0 0 ⟨0, "12a3\n0\n".data, val_zero⟩
        "12a3".data "0\n".data rfl (by decide)).1 (by decide)).1⟩,
    ⟨by decide, by decide, by decide, by decide, by decide, by decide,
      ((menu_invalid_option (table_device healthy) 0 0 ⟨0, "7\n0\n".data, val_zero⟩
        "7".data "0\n".data rfl (by decide)).2 (by decide) (by decide) (by decide) (by decide)
        (by decide)).1⟩⟩

/-- C9 as stated fails: on the choice line `7`, a number that is not a menu option,
the pass prints the menu and nothing else; `Invalid option entered. Please
re-enter.` is not printed, neither in that pass nor in the rest of the session
(here the next line is `0`, which ends it). -/
theorem menu_seven_prints_no_message :
    (menu_pass (table_device healthy) 0 0 ⟨0, "7\n0\n".data, val_zero⟩).trace = menu_prompt ∧
    Event.printf fmt_invalid_option [] ∉
      (menu_pass (table_device healthy) 0 0 ⟨0, "7\n0\n".data, val_zero⟩).trace ∧
    (menu_loop (table_device healthy) 0 0 3 ⟨0, "7\n0\n".data, val_zero⟩).2.1 =
      menu_prompt ++ menu_prompt ++ [.printf fmt_exiting []] ∧
    (menu_loop (table_device healthy) 0 0 3 ⟨0, "7\n0\n".data, val_zero⟩).2.2 =
      .exited OPENNSL_E_NONE := by
  refine ⟨by decide, by decide, by decide, by decide⟩

end Session

/-! ## The display and the clear operation, from the menu -/

section MenuOperations

variable {σ : Type}

theorem menu_pass_display (g : Gateway σ) (unit : Int) (options : Nat) (st : State σ)
    (line rest line2 rest2 : List Char) (s1 : σ) (gport : Int)
    (hst : st.stdin = line ++ '\n' :: rest) (h : well_formed line)
    (h1 : decimal_value line = 1) (hrest : rest = line2 ++ '\n' :: rest2)
    (h2 : well_formed line2)
    (hres : g.opennsl_port_gport_get st.dev unit (decimal_value line2 : Int) =
      (s1, OPENNSL_E_NONE, gport)) :
    menu_pass g unit options st =
      ⟨⟨(display_stats g unit gport options s1 st.val).1, rest2,
          (display_stats g unit gport options s1 st.val).2.1⟩,
        menu_prompt ++ .printf fmt_enter_port [] ::
          .port_gport_get unit (decimal_value line2 : Int) OPENNSL_E_NONE gport ::
          (display_stats g unit gport options s1 st.val).2.2,
        .next⟩ := by
  have hr2 := (read_user_choice_wf line2 rest2 h2).2
  rw [← hrest] at hr2
  have e1 : (decimal_value line : Int) = 1 := by exact_mod_cast h1
  simp only [menu_pass, hst, (read_user_choice_wf line rest h).2, ne_eq, not_true_eq_false,
    if_false, e1, if_true, case_1, hr2, hres]

theorem menu_pass_clear (g : Gateway σ) (unit : Int) (options : Nat) (st : State σ)
    (line rest line2 rest2 : List Char) (s1 : σ) (gport : Int)
    (hst : st.stdin = line ++ '\n' :: rest) (h : well_formed line)
    (h1 : decimal_value line = 2) (hrest : rest = line2 ++ '\n' :: rest2)
    (h2 : well_formed line2)
    (hres : g.opennsl_port_gport_get st.dev unit (decimal_value line2 : Int) =
      (s1, OPENNSL_E_NONE, gport)) :
    menu_pass g unit options st =
      ⟨⟨(clear_stats g unit gport (decimal_value line2 : Int) s1).1, rest2, st.val⟩,
        menu_prompt ++ .printf fmt_enter_port [] ::
          .port_gport_get unit (decimal_value line2 : Int) OPENNSL_E_NONE gport ::
          (clear_stats g unit gport (decimal_value line2 : Int) s1).2,
        .next⟩ := by
  have hr2 := (read_user_choice_wf line2 rest2 h2).2
  rw [← hrest] at hr2
  have e1 : ¬ ((2 : Int) = 1) := by decide
  have e2 : (decimal_value line : Int) = 2 := by exact_mod_cast h1
  simp only [menu_pass, hst, (read_user_choice_wf line rest h).2, ne_eq, not_true_eq_false,
    if_false, e1, e2, if_true, case_2, hr2, hres]

theorem operation_lead_obs (unit port gport : Int) :
    sync_calls (menu_prompt ++ [.printf fmt_enter_port [],
      .port_gport_get unit port OPENNSL_E_NONE gport]) = [] ∧
    get_calls (menu_prompt ++ [.printf fmt_enter_port [],
      .port_gport_get unit port OPENNSL_E_NONE gport]) = [] ∧
    clear_calls (menu_prompt ++ [.printf fmt_enter_port [],
      .port_gport_get unit port OPENNSL_E_NONE gport]) = [] ∧
    ∀ name, value_lines name (menu_prompt ++ [.printf fmt_enter_port [],
      .port_gport_get unit port OPENNSL_E_NONE gport]) = 0 := by
  refine ⟨rfl, rfl, rfl, fun name => ?_⟩
  simp [menu_prompt, value_lines]

theorem operation_lead_append (unit port gport : Int) (t : List Event) :
    menu_prompt ++ .printf fmt_enter_port [] ::
        .port_gport_get unit port OPENNSL_E_NONE gport :: t =
      (menu_prompt ++ [.printf fmt_enter_port [],
        .port_gport_get unit port OPENNSL_E_NONE gport]) ++ t := by
  simp

/-- C1: in the display operation (menu choice 1 with a port that resolves), on every
device: when the synchronisation of the kind of catalog index `k` fails, the
synchronisation calls of the pass are exactly those of the indices `0..k` (none for
an index above `k`), and the read phase still runs: the read calls of the pass are,
kind after kind in catalog order, the queues from 0 upwards of each of the 4 kinds,
at least queue 0 for each; every synchronisation call comes before every read
call. -/
theorem display_sync_failure (g : Gateway σ) (unit : Int) (options : Nat) (st : State σ)
    (line rest line2 rest2 : List Char) (s1 : σ) (gport : Int)
    (hst : st.stdin = line ++ '\n' :: rest) (h : well_formed line)
    (h1 : decimal_value line = 1) (hrest : rest = line2 ++ '\n' :: rest2)
    (h2 : well_formed line2)
    (hres : g.opennsl_port_gport_get st.dev unit (decimal_value line2 : Int) =
      (s1, OPENNSL_E_NONE, gport))
    (k : Nat) (hk : k < MAX_COUNTERS) (rc : Int) (hrc : rc ≠ OPENNSL_E_NONE)
    (hfail : Event.bst_stat_sync unit (id_list k).bid rc ∈
      (menu_pass g unit options st).trace) :
    sync_calls (menu_pass g unit options st).trace =
      (List.range (k + 1)).map (fun i => (id_list i).bid) ∧
    (∃ n : Nat → Nat, (∀ i, 1 ≤ n i ∧ n i ≤ 8) ∧
      get_calls (menu_pass g unit options st).trace = calls_in_order n) ∧
    ∃ t1 t2, (menu_pass g unit options st).trace = t1 ++ t2 ∧
      get_calls t1 = [] ∧ sync_calls t2 = [] := by
  have hT : (menu_pass g unit options st).trace =
      (menu_prompt ++ [.printf fmt_enter_port [],
        .port_gport_get unit (decimal_value line2 : Int) OPENNSL_E_NONE gport]) ++
      (display_stats g unit gport options s1 st.val).2.2 := by
    rw [menu_pass_display g unit options st line rest line2 rest2 s1 gport hst h h1 hrest h2
      hres]
    exact operation_lead_append _ _ _ _
  obtain ⟨ls, lg, _, _⟩ := operation_lead_obs unit (decimal_value line2 : Int) gport
  rw [hT] at hfail
  have hmem : Event.bst_stat_sync unit (id_list k).bid rc ∈
      (display_stats g unit gport options s1 st.val).2.2 := by
    rcases List.mem_append.1 hfail with hm | hm
    · have := mem_sync_calls hm
      rw [ls] at this
      simp at this
    · exact hm
  obtain ⟨a, ⟨n, hn, hg⟩, t1, t2, e, e1, e2⟩ :=
    display_stats_sync_failure g unit gport options s1 st.val k hk rc hrc hmem
  rw [hT]
  refine ⟨?_, ⟨n, hn, ?_⟩,
    (menu_prompt ++ [.printf fmt_enter_port [],
      .port_gport_get unit (decimal_value line2 : Int) OPENNSL_E_NONE gport]) ++ t1,
    t2, ?_, ?_, e2⟩
  · rw [sync_calls_append, ls, a, List.nil_append]
  · rw [get_calls_append, lg, hg, List.nil_append]
  · simp only [e, List.append_assoc]
  · rw [get_calls_append, lg, e1, List.nil_append]

/-- C1 on the device whose multicast synchronisation fails (index 1), with the input
`1`, `3`: the pass makes two synchronisation calls, none for the indices 2 and 3,
and all 32 reads. -/
theorem display_sync_failure_witness :
    (well_formed "1".data ∧ decimal_value "1".data = 1 ∧ well_formed "3".data ∧
      (table_device sync_fails_mcast).opennsl_port_gport_get 0 0
        (decimal_value "3".data : Int) = (1, OPENNSL_E_NONE, 3) ∧
      1 < MAX_COUNTERS ∧ (-1 : Int) ≠ OPENNSL_E_NONE ∧
      Event.bst_stat_sync 0 (id_list 1).bid (-1) ∈
        (menu_pass (table_device sync_fails_mcast) 0 0 ⟨0, "1\n3\n".data, val_zero⟩).trace) ∧
    sync_calls
        (menu_pass (table_device sync_fails_mcast) 0 0 ⟨0, "1\n3\n".data, val_zero⟩).trace =
      (List.range (1 + 1)).map (fun i => (id_list i).bid) ∧
    sync_calls
        (menu_pass (table_device sync_fails_mcast) 0 0 ⟨0, "1\n3\n".data, val_zero⟩).trace =
      [.opennslBstStatIdUcast, .opennslBstStatIdMcast] ∧
    get_calls
        (menu_pass (table_device sync_fails_mcast) 0 0 ⟨0, "1\n3\n".data, val_zero⟩).trace =
      calls_in_order (fun _ => 8) :=
  ⟨⟨by decide, by decide, by decide, by rfl, by decide, by decide, by decide⟩,
    (display_sync_failure (table_device sync_fails_mcast) 0 0 ⟨0, "1\n3\n".data, val_zero⟩
      "1".data "3\n".data "3".data [] 1 3 rfl (by decide) (by decide) rfl (by decide) (by rfl)
      1 (by decide) (-1) (by decide) (by decide)).1,
    by decide, by decide⟩

/-- C2: in the display operation (menu choice 1 with a port that resolves), on every
device: when the read of queue `q` of the kind of catalog index `k` fails, `q` is one
of `0..7`, the read calls of the pass for that kind are exactly those of the queues
`0..q` (none for `q+1..7`), exactly `q` value lines are printed for that kind, and,
when `k` is not the last index, the read call that follows is the one of queue 0 of
the kind of index `k+1`. -/
theorem display_read_failure (g : Gateway σ) (unit : Int) (options : Nat) (st : State σ)
    (line rest line2 rest2 : List Char) (s1 : σ) (gport : Int)
    (hst : st.stdin = line ++ '\n' :: rest) (h : well_formed line)
    (h1 : decimal_value line = 1) (hrest : rest = line2 ++ '\n' :: rest2)
    (h2 : well_formed line2)
    (hres : g.opennsl_port_gport_get st.dev unit (decimal_value line2 : Int) =
      (s1, OPENNSL_E_NONE, gport))
    (k q : Nat) (hk : k < MAX_COUNTERS) (rc : Int) (x : Nat) (hrc : rc ≠ OPENNSL_E_NONE)
    (hfail : Event.bst_stat_get unit gport q (id_list k).bid options rc x ∈
      (menu_pass g unit options st).trace) :
    q ≤ 7 ∧
    (get_calls (menu_pass g unit options st).trace).filter
        (fun p => decide (p.1 = (id_list k).bid)) =
      (List.range (q + 1)).map (fun c => ((id_list k).bid, c)) ∧
    value_lines (id_list k).name (menu_pass g unit options st).trace = q ∧
    (k + 1 < MAX_COUNTERS → ∃ pre post,
      get_calls (menu_pass g unit options st).trace =
        pre ++ ((id_list k).bid, q) :: ((id_list (k + 1)).bid, 0) :: post) := by
  have hT : (menu_pass g unit options st).trace =
      (menu_prompt ++ [.printf fmt_enter_port [],
        .port_gport_get unit (decimal_value line2 : Int) OPENNSL_E_NONE gport]) ++
      (display_stats g unit gport options s1 st.val).2.2 := by
    rw [menu_pass_display g unit options st line rest line2 rest2 s1 gport hst h h1 hrest h2
      hres]
    exact operation_lead_append _ _ _ _
  obtain ⟨_, lg, _, lv⟩ := operation_lead_obs unit (decimal_value line2 : Int) gport
  rw [hT] at hfail
  have hmem : Event.bst_stat_get unit gport q (id_list k).bid options rc x ∈
      (display_stats g unit gport options s1 st.val).2.2 := by
    rcases List.mem_append.1 hfail with hm | hm
    · have := mem_get_calls hm
      rw [lg] at this
      simp at this
    · exact hm
  obtain ⟨a, b, c, d⟩ :=
    display_stats_read_failure g unit gport options s1 st.val k q hk rc x hrc hmem
  rw [hT]
  refine ⟨a, ?_, ?_, ?_⟩
  · rw [get_calls_append, lg, List.nil_append]
    exact b
  · rw [value_lines_append, lv, c, Nat.zero_add]
  · intro hk1
    rw [get_calls_append, lg, List.nil_append]
    exact d hk1

/-- C2 on the device whose read of queue 2 of the multicast counter (index 1) fails,
with the input `1`, `3`: two value lines for that kind, and the reads of the pass
are queues 0..7 of the unicast counter, queues 0..2 of the multicast counter, then
queues 0..7 of the two other kinds. -/
theorem display_read_failure_witness :
    (well_formed "1".data ∧ decimal_value "1".data = 1 ∧ well_formed "3".data ∧
      (table_device get_fails_mcast_2).opennsl_port_gport_get 0 0
        (decimal_value "3".data : Int) = (1, OPENNSL_E_NONE, 3) ∧
      1 < MAX_COUNTERS ∧ (-1 : Int) ≠ OPENNSL_E_NONE ∧
      Event.bst_stat_get 0 3 2 (id_list 1).bid 0 (-1) 0 ∈
        (menu_pass (table_device get_fails_mcast_2) 0 0 ⟨0, "1\n3\n".data, val_zero⟩).trace) ∧
    (value_lines (id_list 1).name
        (menu_pass (table_device get_fails_mcast_2) 0 0 ⟨0, "1\n3\n".data, val_zero⟩).trace
        = 2 ∧
      (1 + 1 < MAX_COUNTERS → ∃ pre post,
        get_calls
            (menu_pass (table_device get_fails_mcast_2) 0 0
              ⟨0, "1\n3\n".data, val_zero⟩).trace =
          pre ++ ((id_list 1).bid, 2) :: ((id_list (1 + 1)).bid, 0) :: post)) ∧
    get_calls
        (menu_pass (table_device get_fails_mcast_2) 0 0 ⟨0, "1\n3\n".data, val_zero⟩).trace =
      calls_in_order (fun i => if i = 1 then 3 else 8) :=
  ⟨⟨by decide, by decide, by decide, by rfl, by decide, by decide, by decide⟩,
    (display_read_failure (table_device get_fails_mcast_2) 0 0 ⟨0, "1\n3\n".data, val_zero⟩
      "1".data "3\n".data "3".data [] 1 3 rfl (by decide) (by decide) rfl (by decide) (by rfl)
      1 2 (by decide) (-1) 0 (by decide) (by decide)).2.2,
    by decide⟩

/-- C4: in the clear operation (menu choice 2 with a port that resolves), on every
device: the pass makes no synchronisation call and no read call; its clear calls
are, kind after kind in catalog order, the queues from 0 upwards of each of the 4
kinds (`n i` queues for the kind of index `i`, at least queue 0); when the clear of
queue `q` of the kind of index `k` fails, that kind stops there (`n k = q + 1`: no
clear for `q+1..7`) and the next kind starts at queue 0; a kind none of whose clears
fails has all 8 queues cleared. -/
theorem clear_stats_calls (g : Gateway σ) (unit : Int) (options : Nat) (st : State σ)
    (line rest line2 rest2 : List Char) (s1 : σ) (gport : Int)
    (hst : st.stdin = line ++ '\n' :: rest) (h : well_formed line)
    (h1 : decimal_value line = 2) (hrest : rest = line2 ++ '\n' :: rest2)
    (h2 : well_formed line2)
    (hres : g.opennsl_port_gport_get st.dev unit (decimal_value line2 : Int) =
      (s1, OPENNSL_E_NONE, gport)) :
    sync_calls (menu_pass g unit options st).trace = [] ∧
    get_calls (menu_pass g unit options st).trace = [] ∧
    ∃ n : Nat → Nat, (∀ i, 1 ≤ n i ∧ n i ≤ 8) ∧
      clear_calls (menu_pass g unit options st).trace = calls_in_order n ∧
      (∀ k q rc, k < MAX_COUNTERS → rc ≠ OPENNSL_E_NONE →
        Event.bst_stat_clear unit gport q (id_list k).bid rc ∈
          (menu_pass g unit options st).trace → n k = q + 1) ∧
      (∀ k, k < MAX_COUNTERS →
        (∀ q rc, Event.bst_stat_clear unit gport q (id_list k).bid rc ∈
          (menu_pass g unit options st).trace → rc = OPENNSL_E_NONE) → n k = 8) := by
  have hT : (menu_pass g unit options st).trace =
      (menu_prompt ++ [.printf fmt_enter_port [],
        .port_gport_get unit (decimal_value line2 : Int) OPENNSL_E_NONE gport]) ++
      (clear_stats g unit gport (decimal_value line2 : Int) s1).2 := by
    rw [menu_pass_clear g unit options st line rest line2 rest2 s1 gport hst h h1 hrest h2
      hres]
    exact operation_lead_append _ _ _ _
  obtain ⟨ls, lg, lc, _⟩ := operation_lead_obs unit (decimal_value line2 : Int) gport
  obtain ⟨a, b, n, hn, c, d, e⟩ :=
    clear_stats_clear_calls g unit gport (decimal_value line2 : Int) s1
  rw [hT]
  refine ⟨?_, ?_, n, hn, ?_, ?_, ?_⟩
  · rw [sync_calls_append, ls, a, List.nil_append]
  · rw [get_calls_append, lg, b, List.nil_append]
  · rw [clear_calls_append, lc, c, List.nil_append]
  · intro k q rc hk hrc hm
    apply d k q rc hk hrc
    rcases List.mem_append.1 hm with hm | hm
    · have := mem_clear_calls hm
      rw [lc] at this
      simp at this
    · exact hm
  · intro k hk hall
    exact e k hk (fun q rc hm => hall q rc (List.mem_append_right _ hm))

/-- C4 on the device whose clear of queue 2 of the multicast counter fails, with the
input `2`, `4`: the clear calls of the pass are queues 0..7 of the unicast counter,
queues 0..2 of the multicast counter, then queues 0..7 of the two other kinds; the
pass ends with `Port 4 stats cleared` and goes back to the menu. -/
theorem clear_stats_calls_witness :
    (well_formed "2".data ∧ decimal_value "2".data = 2 ∧ well_formed "4".data ∧
      (table_device clear_fails_mcast_2).opennsl_port_gport_get 0 0
        (decimal_value "4".data : Int) = (1, OPENNSL_E_NONE, 4)) ∧
    (sync_calls
        (menu_pass (table_device clear_fails_mcast_2) 0 0 ⟨0, "2\n4\n".data, val_zero⟩).trace
        = [] ∧
      get_calls
        (menu_pass (table_device clear_fails_mcast_2) 0 0 ⟨0, "2\n4\n".data, val_zero⟩).trace
        = []) ∧
    clear_calls
        (menu_pass (table_device clear_fails_mcast_2) 0 0 ⟨0, "2\n4\n".data, val_zero⟩).trace =
      calls_in_order (fun i => if i = 1 then 3 else 8) ∧
    (menu_pass (table_device clear_fails_mcast_2) 0 0
        ⟨0, "2\n4\n".data, val_zero⟩).trace.getLast? =
      some (.printf fmt_stats_cleared [.int 4]) ∧
    (menu_pass (table_device clear_fails_mcast_2) 0 0 ⟨0, "2\n4\n".data, val_zero⟩).ctl =
      .next :=
  ⟨⟨by decide, by decide, by decide, by rfl⟩,
    ⟨(clear_stats_calls (table_device clear_fails_mcast_2) 0 0 ⟨0, "2\n4\n".data, val_zero⟩
        "2".data "4\n".data "4".data [] 1 4 rfl (by decide) (by decide) rfl (by decide)
        (by rfl)).1,
      (clear_stats_calls (table_device clear_fails_mcast_2) 0 0 ⟨0, "2\n4\n".data, val_zero⟩
        "2".data "4\n".data "4".data [] 1 4 rfl (by decide) (by decide) rfl (by decide)
        (by rfl)).2.1⟩,
    by decide, by decide, by decide⟩

end MenuOperations

end ExampleBst
